import Mathlib

/-!
Cosmographia: trajectories, catalog loading and ellipse geometry.

A shallow embedding of `src/main/Cosmographia.cpp` and of
`thirdparty/vesta/GeneralEllipse.h`.

Conventions of the embedding

* The C++ scalar type `double` is idealised as an exact field `α` (the
  definitions run at `α = ℚ`); rounding, infinities and NaN are outside the
  model. The functions of the C math library are a parameter of the definitions
  that call them.
* Calls on collaborating objects (`m_loader`, `m_view3d`, message boxes, the
  network manager) are recorded, in program order, as values of a call type;
  the `qDebug()` diagnostics are left out.
* Classes whose implementation is not among the sources are either parameters of
  the definitions that use them or are modelled from the specification; each
  such definition says so in its doc comment.
-/

namespace Cosmographia

/-! ## Vectors -/

/-- The type `Eigen::Vector3d`, three scalar components. -/
@[ext]
structure Vector3d (α : Type) where
  x : α
  y : α
  z : α
deriving DecidableEq, Repr

namespace Vector3d

variable {α : Type}

/-- Component-wise sum, `u + v`. -/
def add [Add α] (u v : Vector3d α) : Vector3d α :=
  ⟨u.x + v.x, u.y + v.y, u.z + v.z⟩

/-- Component-wise difference, `u - v`. -/
def sub [Sub α] (u v : Vector3d α) : Vector3d α :=
  ⟨u.x - v.x, u.y - v.y, u.z - v.z⟩

/-- Scaling by a scalar, `c * v`. -/
def smul [Mul α] (c : α) (v : Vector3d α) : Vector3d α :=
  ⟨c * v.x, c * v.y, c * v.z⟩

/-- The vector `Vector3d::Zero()`. -/
def zero [Zero α] : Vector3d α := ⟨0, 0, 0⟩

/-- The inner product `u.dot(v)`. -/
def dot [Add α] [Mul α] (u v : Vector3d α) : α :=
  u.x * v.x + u.y * v.y + u.z * v.z

/-- The squared length `v.squaredNorm()`. -/
def squaredNorm [Add α] [Mul α] (v : Vector3d α) : α := dot v v

instance [Add α] : Add (Vector3d α) := ⟨add⟩
instance [Sub α] : Sub (Vector3d α) := ⟨sub⟩
instance [Zero α] : Zero (Vector3d α) := ⟨zero⟩
instance [Mul α] : HMul α (Vector3d α) (Vector3d α) := ⟨smul⟩

end Vector3d

/-! ## Trajectories -/

/-- Modelled from the spec: the capability `vesta::Trajectory`
(`vesta/Trajectory.h` is not among the sources). Spec §3: given a simulation
time (seconds, TDB) it returns a position, and it exposes an approximate orbital
period. -/
structure Trajectory (α : Type) where
  position : α → Vector3d α
  period : α

/-- Modelled from the spec: the class `LinearCombinationTrajectory`
(`LinearCombinationTrajectory.h` is not among the sources). Spec §3: an ordered
list of (Trajectory, scalar weight) pairs plus a cached period. -/
structure LinearCombinationTrajectory (α : Type) where
  terms : List (Trajectory α × α)
  period : α

namespace LinearCombinationTrajectory

variable {α : Type}

/-- Modelled from the spec: the four-argument constructor used in
`Cosmographia.cpp`, `LinearCombinationTrajectory(t0, w0, t1, w1)`. It stores the
two terms in argument order. The period a new object starts with is not visible
in the sources; it is taken to be 0, and both call sites overwrite it through
`setPeriod` before the object is handed on. -/
def new [Zero α] (t0 : Trajectory α) (w0 : α) (t1 : Trajectory α) (w1 : α) :
    LinearCombinationTrajectory α :=
  { terms := [(t0, w0), (t1, w1)], period := 0 }

/-- Modelled from the spec: `setPeriod(p)` assigns the cached period and leaves
the terms alone. -/
def setPeriod (orbit : LinearCombinationTrajectory α) (p : α) :
    LinearCombinationTrajectory α :=
  { orbit with period := p }

/-- Modelled from the spec: evaluation at time `t` returns
`Σ weight_i · position_i(t)`, summed in term order starting from the zero
vector (spec §3, invariant of LinearCombination). -/
def position [Field α] (orbit : LinearCombinationTrajectory α) (t : α) : Vector3d α :=
  orbit.terms.foldl (fun acc term => acc + term.2 * term.1.position t) 0

/-- The up-cast `LinearCombinationTrajectory* → Trajectory*`: the object seen
through the `Trajectory` capability. -/
def toTrajectory [Field α] (orbit : LinearCombinationTrajectory α) : Trajectory α :=
  { position := orbit.position, period := orbit.period }

end LinearCombinationTrajectory

/-! ## The planetary ephemeris -/

/-- The body identifiers `JPLEphemeris::JplObjectId` that `Cosmographia.cpp`
uses. -/
inductive JplObjectId where
  | Mercury
  | Venus
  | EarthMoonBarycenter
  | Mars
  | Jupiter
  | Saturn
  | Uranus
  | Neptune
  | Pluto
  | Moon
  | Sun
deriving DecidableEq, Repr

/-- Modelled from the spec: a loaded `JPLEphemeris` (`JPLEphemeris.h` is not
among the sources). Spec §4.1: it exposes `trajectory(bodyId)` and the scalar
constant `earthMoonMassRatio()`. -/
structure JPLEphemeris (α : Type) where
  trajectory : JplObjectId → Trajectory α
  earthMoonMassRatio : α

/-- The local variable `orbit` of `createSunRelativeTrajectory`
(Cosmographia.cpp:306-308): the combination of the body term with weight 1.0 and
the Sun term with weight -1.0, with the period set from the body term. -/
def createSunRelativeOrbit {α : Type} [Field α] (eph : JPLEphemeris α) (id : JplObjectId) :
    LinearCombinationTrajectory α :=
  (LinearCombinationTrajectory.new (eph.trajectory id) 1
      (eph.trajectory JplObjectId.Sun) (-1)).setPeriod (eph.trajectory id).period

/-- The function `createSunRelativeTrajectory` (Cosmographia.cpp:303-310):
converts a JPL ephemeris orbit from SSB-centered to Sun-centered. It returns
`orbit` as a `Trajectory*`. -/
def createSunRelativeTrajectory {α : Type} [Field α] (eph : JPLEphemeris α)
    (id : JplObjectId) : Trajectory α :=
  (createSunRelativeOrbit eph id).toTrajectory

/-! ## Once-per-run initialization -/

/-- The rotation model classes that `Cosmographia.cpp` instantiates. -/
inductive RotationModel where
  | IAULunarRotationModel
deriving DecidableEq, Repr

/-- The calls that `Cosmographia::initialize` makes, in program order: the
registrations on `m_loader`, the set-up of the network manager
(Cosmographia.cpp:373-377), `m_loader->setTextureLoader` and
`loadCatalogFile`. -/
inductive InitializeCall (α : Type) where
  | addBuiltinOrbit (name : String) (trajectory : Trajectory α)
  | addBuiltinRotationModel (name : String) (model : RotationModel)
  | setUpNetworkManager
  | setTextureLoader
  | loadCatalogFile (fileName : String)

/-- The block guarded by `if (eph)` in `Cosmographia::initialize`
(Cosmographia.cpp:322-356): the builtin orbit registrations, in program
order. -/
def registerBuiltinOrbits {α : Type} [Field α] (eph : JPLEphemeris α) :
    List (InitializeCall α) :=
  let embTrajectory := createSunRelativeTrajectory eph JplObjectId.EarthMoonBarycenter
  -- m = the ratio of the Moon's to the mass of the Earth-Moon system
  let m := 1 / (1 + eph.earthMoonMassRatio)
  let earthTrajectory :=
    (LinearCombinationTrajectory.new embTrajectory 1
        (eph.trajectory JplObjectId.Moon) (-m)).setPeriod embTrajectory.period
  [ InitializeCall.addBuiltinOrbit "Sun" (eph.trajectory JplObjectId.Sun),
    InitializeCall.addBuiltinOrbit "Moon" (eph.trajectory JplObjectId.Moon),
    InitializeCall.addBuiltinOrbit "EMB" embTrajectory,
    InitializeCall.addBuiltinOrbit "Mercury" (createSunRelativeTrajectory eph JplObjectId.Mercury),
    InitializeCall.addBuiltinOrbit "Venus" (createSunRelativeTrajectory eph JplObjectId.Venus),
    InitializeCall.addBuiltinOrbit "Mars" (createSunRelativeTrajectory eph JplObjectId.Mars),
    InitializeCall.addBuiltinOrbit "Jupiter" (createSunRelativeTrajectory eph JplObjectId.Jupiter),
    InitializeCall.addBuiltinOrbit "Saturn" (createSunRelativeTrajectory eph JplObjectId.Saturn),
    InitializeCall.addBuiltinOrbit "Uranus" (createSunRelativeTrajectory eph JplObjectId.Uranus),
    InitializeCall.addBuiltinOrbit "Neptune" (createSunRelativeTrajectory eph JplObjectId.Neptune),
    InitializeCall.addBuiltinOrbit "Pluto" (createSunRelativeTrajectory eph JplObjectId.Pluto),
    InitializeCall.addBuiltinOrbit "Earth" earthTrajectory.toTrajectory ]

/-- The function `Cosmographia::initialize` (Cosmographia.cpp:315-383); the
name `initialize` is a keyword of Lean, hence `initializeRun`. Its argument is what `JPLEphemeris::load("de406_1800-2100.dat")` returned: `none`
for the null pointer of a failed load. -/
def initializeRun {α : Type} [Field α] (eph : Option (JPLEphemeris α)) :
    List (InitializeCall α) :=
  (match eph with
    | some eph => registerBuiltinOrbits eph
    | none => [])
  ++ [ InitializeCall.addBuiltinRotationModel "IAU Moon" RotationModel.IAULunarRotationModel,
       InitializeCall.setUpNetworkManager,
       InitializeCall.setTextureLoader,
       InitializeCall.loadCatalogFile "solarsys.json" ]

/-- The builtin orbit registrations among a sequence of calls, oldest first. -/
def builtinOrbits {α : Type} : List (InitializeCall α) → List (String × Trajectory α)
  | [] => []
  | InitializeCall.addBuiltinOrbit name trajectory :: rest =>
      (name, trajectory) :: builtinOrbits rest
  | _ :: rest => builtinOrbits rest

/-- Modelled from the spec: the builtin orbit table of `UniverseLoader`
(`UniverseLoader.h` is not among the sources). Spec §6: `addBuiltinOrbit(name,
Trajectory)` fills a lookup table by name; the trajectory found under `name` is
the one most recently registered under it. -/
def builtinOrbit {α : Type} (calls : List (InitializeCall α)) (name : String) :
    Option (Trajectory α) :=
  ((builtinOrbits calls).reverse.find? (fun entry => entry.1 == name)).map (fun entry => entry.2)

/-! ## GeneralEllipse -/

/-- The functions of the C math library that the ellipse code calls, as a
parameter: `atan2(y, x)`, `cos`, `sin` and `sqrt`. -/
structure MathLibrary (α : Type) where
  atan2 : α → α → α
  cos : α → α
  sin : α → α
  sqrt : α → α

/-- The math library computes exactly: `atan2(y, x)` is the angle in (-π, π] of
the point (x, y) and 0 at the origin, `cos`, `sin` and `sqrt` are the real
functions. -/
structure MathLibrary.Exact (math : MathLibrary ℝ) : Prop where
  atan2_eq : ∀ y x : ℝ, math.atan2 y x = Complex.arg ⟨x, y⟩
  cos_eq : ∀ x : ℝ, math.cos x = Real.cos x
  sin_eq : ∀ x : ℝ, math.sin x = Real.sin x
  sqrt_eq : ∀ x : ℝ, math.sqrt x = Real.sqrt x

/-- The length `v.norm()`: the square root of the squared length. -/
def Vector3d.norm {α : Type} [Add α] [Mul α] (math : MathLibrary α) (v : Vector3d α) : α :=
  math.sqrt v.squaredNorm

/-- The type `Eigen::Matrix<double, 2, 3>`, as its two rows. -/
@[ext]
structure Matrix2x3 (α : Type) where
  row0 : Vector3d α
  row1 : Vector3d α
deriving DecidableEq, Repr

/-- The assignment `m.row(i) = v`. -/
def Matrix2x3.setRow {α : Type} (m : Matrix2x3 α) (i : Fin 2) (v : Vector3d α) : Matrix2x3 α :=
  if i = 0 then { m with row0 := v } else { m with row1 := v }

/-- The accessor `m.row(i)`. -/
def Matrix2x3.row {α : Type} (m : Matrix2x3 α) (i : Fin 2) : Vector3d α :=
  if i = 0 then m.row0 else m.row1

/-- The class `vesta::GeneralEllipse` (GeneralEllipse.h:27-56): an arbitrary
ellipse in 3D space, defined by a center point and two generating vectors. -/
structure GeneralEllipse (α : Type) where
  m_center : Vector3d α
  m_generatingVectors : Matrix2x3 α
deriving DecidableEq, Repr

namespace GeneralEllipse

variable {α : Type}

/-- The constructor `GeneralEllipse(center, v0, v1)` (GeneralEllipse.h:32-39).
The matrix member is not initialised before its two rows are assigned; the model
starts it at zero. -/
def new [Zero α] (center v0 v1 : Vector3d α) : GeneralEllipse α :=
  { m_center := center
    m_generatingVectors := ((⟨0, 0⟩ : Matrix2x3 α).setRow 0 v0).setRow 1 v1 }

/-- The accessor `center()` (GeneralEllipse.h:41-44). -/
def center (e : GeneralEllipse α) : Vector3d α := e.m_center

/-- The accessor `generatingVectors()` (GeneralEllipse.h:46-49). -/
def generatingVectors (e : GeneralEllipse α) : Matrix2x3 α := e.m_generatingVectors

/-- The points the class comment gives (GeneralEllipse.h:21-26):
`C + cos(theta) v0 + sin(theta) v1`, with `v0` and `v1` the rows of the stored
matrix. -/
def pointSet (e : GeneralEllipse ℝ) : Set (Vector3d ℝ) :=
  fun p => ∃ theta : ℝ,
    p = e.center + Real.cos theta * e.generatingVectors.row 0
          + Real.sin theta * e.generatingVectors.row 1

/-- Modelled from the spec: the angle of the diagonalization in
`principalSemiAxes`. It is the parameter angle at which the point
`cos θ v0 + sin θ v1` of the ellipse generated by `v0`, `v1` is farthest from the
center: `atan2(2 v0·v1, v0·v0 - v1·v1) / 2`. -/
def principalAngle [Field α] (math : MathLibrary α) (v0 v1 : Vector3d α) : α :=
  math.atan2 (2 * v0.dot v1) (v0.squaredNorm - v1.squaredNorm) / 2

/-- Modelled from the spec: `GeneralEllipse::principalSemiAxes()`, declared at
GeneralEllipse.h:51; its body (GeneralEllipse.cpp) is not among the sources.
Spec §3 describes it as a closed-form diagonalization of a possibly skew
generating basis, major axis first: the generating vectors are rotated, inside
their plane, by the principal angle, so that row 0 is the farthest point of the
ellipse from its center and row 1 the point a quarter turn later. -/
def principalSemiAxes [Field α] (math : MathLibrary α) (e : GeneralEllipse α) : Matrix2x3 α :=
  let v0 := e.m_generatingVectors.row 0
  let v1 := e.m_generatingVectors.row 1
  let theta := principalAngle math v0 v1
  ⟨math.cos theta * v0 + math.sin theta * v1,
   (-math.sin theta) * v0 + math.cos theta * v1⟩

end GeneralEllipse

/-! ## Variants and the catalog registry -/

/-- The type `QVariant`, restricted to what the catalog code inspects: the
invalid variant, strings, lists and maps. Every other kind of value (numbers,
booleans, dates) is `other`, carrying the text `toString()` converts it to. -/
inductive QVariant where
  | invalid
  | string (s : String)
  | other (text : String)
  | list (items : List QVariant)
  | map (entries : List (String × QVariant))

/-- The type `QVariantMap`, that is `QMap<QString, QVariant>`: the entries in
key order. -/
abbrev QVariantMap := List (String × QVariant)

/-- The test `obj.type() == QVariant::Map`. -/
def QVariant.isMap : QVariant → Bool
  | QVariant.map _ => true
  | _ => false

/-- The conversion `toMap()`: the entries of a map, the empty map for every
other variant. -/
def QVariant.toMap : QVariant → QVariantMap
  | QVariant.map entries => entries
  | _ => []

/-- The conversion `toList()`: the items of a list, the empty list for every
other variant. -/
def QVariant.toList : QVariant → List QVariant
  | QVariant.list items => items
  | _ => []

/-- The conversion `toString()`: the text of a string or of a scalar, the empty
string for invalid variants, lists and maps. -/
def QVariant.toString : QVariant → String
  | QVariant.string s => s
  | QVariant.other text => text
  | _ => ""

/-- The lookup `map.value(key)`: the value stored under `key`, or a
default-constructed (invalid) variant. -/
def QVariantMap.value : QVariantMap → String → QVariant
  | [], _ => QVariant.invalid
  | (k, v) :: rest, key => if k = key then v else QVariantMap.value rest key

/-- The update `map.insert(key, value)`: replaces the value of an existing key,
otherwise adds the entry at its place in key order. -/
def QVariantMap.insert : QVariantMap → String → QVariant → QVariantMap
  | [], key, value => [(key, value)]
  | (k, v) :: rest, key, value =>
      if key < k then (key, value) :: (k, v) :: rest
      else if k = key then (key, value) :: rest
      else (k, v) :: QVariantMap.insert rest key value

/-- The conversion `QString::toLower()`, on the ASCII letters (the letters of
the two suffixes that `loadCatalogFile` tests for). -/
def toLower (s : String) : String := ⟨s.data.map Char.toLower⟩

/-- The test `s.endsWith(suffix)`. -/
def endsWith (s suffix : String) : Bool := suffix.data.reverse.isPrefixOf s.data.reverse

/-- Modelled from the spec: the class `UniverseCatalog` (`UniverseCatalog.h` is
not among the sources). Spec §3 and §4.5: the name → (Entity, BodyInfo)
registry, with `find`, `findInfo` and `upsert`. `E` stands for `Entity*` and `I`
for `BodyInfo*`. -/
structure UniverseCatalog (E I : Type) where
  entries : List (String × E × I)

namespace UniverseCatalog

variable {E I : Type}

/-- Modelled from the spec: `find(name) -> Entity | absent`. -/
def find (catalog : UniverseCatalog E I) (name : String) : Option E :=
  (catalog.entries.find? (fun entry => entry.1 == name)).map (fun entry => entry.2.1)

/-- Modelled from the spec: `findInfo(name) -> BodyInfo | absent`. -/
def findInfo (catalog : UniverseCatalog E I) (name : String) : Option I :=
  (catalog.entries.find? (fun entry => entry.1 == name)).map (fun entry => entry.2.2)

/-- Modelled from the spec: the entry list after `upsert(name, entity, info)`;
the entry of an existing name is replaced where it stands, a new name is added
at the end. -/
def upsertEntries (name : String) (entity : E) (info : I) :
    List (String × E × I) → List (String × E × I)
  | [] => [(name, entity, info)]
  | entry :: rest =>
      if entry.1 = name then (name, entity, info) :: rest
      else entry :: upsertEntries name entity info rest

/-- Modelled from the spec: `upsert(name, entity, info)`; re-adding a name
replaces the entry, it does not add a second one (spec §3, Entity). -/
def upsert (catalog : UniverseCatalog E I) (name : String) (entity : E) (info : I) :
    UniverseCatalog E I :=
  ⟨upsertEntries name entity info catalog.entries⟩

/-- The names that have an entry, in entry order. -/
def names (catalog : UniverseCatalog E I) : List String :=
  catalog.entries.map (fun entry => entry.1)

end UniverseCatalog

/-! ## Loading a catalog file -/

/-- The calls that `Cosmographia::loadCatalogFile` makes on its collaborators,
in program order: on `m_loader`, on the network texture loader
(`setLocalSearchPatch`), on `QMessageBox` (`warning`, with its title and text),
on `m_view3d` (`replaceEntity`) and on `m_networkManager` (`get`). -/
inductive Call (E I : Type) where
  | clearResourceRequests
  | setDataSearchPath (path : String)
  | setTextureSearchPath (path : String)
  | setModelSearchPath (path : String)
  | setLocalSearchPatch (path : String)
  | warning (title text : String)
  | loadSolarSystem (contents : QVariantMap)
  | replaceEntity (entity : E) (info : Option I)
  | get (url : String)

/-- The file a catalog name designates, as `loadCatalogFile` sees it: the
directory `QFileInfo(file).absolutePath()`, whether `open(ReadOnly)` succeeds,
what `QJson::Parser::parse` makes of its contents (the parsed variant, or the
error line and error string when `parseOk` is false) and the objects that
successive `CatalogParser::nextSscObject` calls yield. -/
structure CatalogFile where
  absolutePath : String
  opens : Bool
  json : Except (Int × String) QVariant
  sscObjects : List QVariant

/-- The outcome of one call `m_loader->loadSolarSystem(contents, m_catalog)`: the
returned body names, the catalog as the call leaves it and the loader's pending
resource requests. -/
structure SolarSystemLoad (E I : Type) where
  bodyNames : List String
  catalog : UniverseCatalog E I
  resourceRequests : List String

/-- The collaborators of `loadCatalogFile` whose code is not among the sources,
as parameters: `UniverseLoader::loadSolarSystem`, `TransformSscObject`
(compatibility/TransformCatalog.h) and whether `m_loader->textureLoader()` is a
`NetworkTextureLoader` (the `dynamic_cast` at Cosmographia.cpp:676). -/
structure Collaborators (E I : Type) where
  loadSolarSystem : QVariantMap → UniverseCatalog E I → SolarSystemLoad E I
  TransformSscObject : QVariantMap → QVariantMap
  networkTextureLoader : Bool

/-- Modelled from the spec: `CatalogParser` (compatibility/CatalogParser.h is not
among the sources), a reader of the legacy flat-record stream (spec §6): the
objects it has yet to yield. -/
structure CatalogParser where
  pending : List QVariant

/-- Modelled from the spec: `CatalogParser::nextSscObject()` yields the next
object of the stream, and an invalid variant once the stream is exhausted. -/
def CatalogParser.nextSscObject (parser : CatalogParser) : QVariant × CatalogParser :=
  match parser.pending with
  | [] => (QVariant.invalid, parser)
  | obj :: rest => (obj, ⟨rest⟩)

/-- The body of the `while` loop at Cosmographia.cpp:737-743 for one record:
the record is transformed, then its "name" is overwritten with the full name
`_parent + "/" + name`. -/
def sscRecord (TransformSscObject : QVariantMap → QVariantMap) (record : QVariantMap) :
    QVariantMap :=
  let map := TransformSscObject record
  let fullName := (QVariantMap.value map "_parent").toString ++ "/"
    ++ (QVariantMap.value map "name").toString
  QVariantMap.insert map "name" (QVariant.string fullName)

/-- The loop `while (obj.type() == QVariant::Map)` at Cosmographia.cpp:732-746,
started with the current object, the parser and the items collected so far. -/
def sscItemsLoop (TransformSscObject : QVariantMap → QVariantMap) (obj : QVariant)
    (parser : CatalogParser) (items : List QVariant) : List QVariant :=
  match obj with
  | QVariant.map record =>
      sscItemsLoop TransformSscObject parser.nextSscObject.1 parser.nextSscObject.2
        (items ++ [QVariant.map (sscRecord TransformSscObject record)])
  | _ => items
termination_by parser.pending.length + (if obj.isMap then 1 else 0)
decreasing_by
  have hmap : ∀ entries, (QVariant.map entries).isMap = true := fun _ => rfl
  cases hp : parser.pending with
  | nil => simp [CatalogParser.nextSscObject, hp, hmap, QVariant.isMap]
  | cons o rest =>
      have h : (if o.isMap = true then 1 else 0) ≤ 1 := by split <;> omega
      simp only [CatalogParser.nextSscObject, hp, List.length_cons, hmap, if_true]
      omega

/-- The document built for a legacy file (Cosmographia.cpp:728-750): "name" is
the file name, "items" the list the loop collected. -/
def sscContents (TransformSscObject : QVariantMap → QVariantMap) (fileName : String)
    (sscObjects : List QVariant) : QVariantMap :=
  let parser : CatalogParser := ⟨sscObjects⟩
  let items := sscItemsLoop TransformSscObject parser.nextSscObject.1 parser.nextSscObject.2 []
  QVariantMap.insert (QVariantMap.insert [] "name" (QVariant.string fileName))
    "items" (QVariant.list items)

/-- The loop `foreach (QString name, bodyNames)` (Cosmographia.cpp:704-711 and
753-761): every name the catalog finds is passed to the view. -/
def replaceEntities {E I : Type} (catalog : UniverseCatalog E I) :
    List String → List (Call E I)
  | [] => []
  | name :: rest =>
      match catalog.find name with
      | some e => Call.replaceEntity e (catalog.findInfo name) :: replaceEntities catalog rest
      | none => replaceEntities catalog rest

/-- The tail of `loadCatalogFile` from the call of `loadSolarSystem` on
(Cosmographia.cpp:703-711 or 752-761, then 764-776): the load, the
`replaceEntity` calls and one network request for each resource request. -/
def loadAndShow {E I : Type} (env : Collaborators E I) (contents : QVariantMap)
    (m_catalog : UniverseCatalog E I) : UniverseCatalog E I × List (Call E I) :=
  let load := env.loadSolarSystem contents m_catalog
  (load.catalog,
    [Call.loadSolarSystem contents] ++ replaceEntities load.catalog load.bodyNames
      ++ load.resourceRequests.map Call.get)

/-- The function `Cosmographia::loadCatalogFile` (Cosmographia.cpp:653-777): the
catalog it leaves and the calls it makes. After `clearResourceRequests` the
loader has no resource request until `loadSolarSystem` runs. -/
def loadCatalogFile {E I : Type} (env : Collaborators E I) (file : CatalogFile)
    (fileName : String) (m_catalog : UniverseCatalog E I) :
    UniverseCatalog E I × List (Call E I) :=
  if fileName = "" then (m_catalog, [])
  else
    let path := file.absolutePath
    if file.opens = false then
      (m_catalog,
        [ Call.clearResourceRequests,
          Call.warning "Solar System File Error"
            ("Could not open file \x27" ++ fileName ++ "\x27.") ])
    else
      let opened : List (Call E I) :=
        [ Call.clearResourceRequests,
          Call.setDataSearchPath path,
          Call.setTextureSearchPath path,
          Call.setModelSearchPath path ]
        ++ (if env.networkTextureLoader then [Call.setLocalSearchPatch path] else [])
      if endsWith (toLower fileName) ".json" then
        match file.json with
        | Except.error (errorLine, errorString) =>
            (m_catalog,
              opened ++ [ Call.warning "Solar System File Error"
                ("Line " ++ toString errorLine ++ ": " ++ errorString) ])
        | Except.ok result =>
            let contents := result.toMap
            if contents.isEmpty then (m_catalog, opened)
            else
              let shown := loadAndShow env contents m_catalog
              (shown.1, opened ++ shown.2)
      else if endsWith (toLower fileName) ".ssc" then
        let legacy : List (Call E I) :=
          [ Call.setDataSearchPath (path ++ "/data"),
            Call.setTextureSearchPath (path ++ "/textures/medres"),
            Call.setModelSearchPath (path ++ "/models") ]
          ++ (if env.networkTextureLoader then
                [Call.setLocalSearchPatch (path ++ "/textures/medres")] else [])
        let contents := sscContents env.TransformSscObject fileName file.sscObjects
        let shown := loadAndShow env contents m_catalog
        (shown.1, opened ++ legacy ++ shown.2)
      else (m_catalog, opened)

/-- The records of a stream that come before its first object that is not a
map, in stream order. -/
def leadingRecords : List QVariant → List QVariantMap
  | QVariant.map record :: rest => record :: leadingRecords rest
  | _ => []

/-- The documents handed to `loadSolarSystem` in a sequence of calls, in call
order. -/
def loadedContents {E I : Type} : List (Call E I) → List QVariantMap
  | [] => []
  | Call.loadSolarSystem contents :: rest => contents :: loadedContents rest
  | _ :: rest => loadedContents rest

/-- The (entity, info) pairs passed to `replaceEntity` in a sequence of calls, in
call order. -/
def replacedEntities {E I : Type} : List (Call E I) → List (E × Option I)
  | [] => []
  | Call.replaceEntity entity info :: rest => (entity, info) :: replacedEntities rest
  | _ :: rest => replacedEntities rest

/-! ## The catalog resolver, from the specification -/

/-- Modelled from the spec: the name an item record declares (spec §3,
CatalogDocument), the text of its "name" field. -/
def declaredName (item : QVariant) : String :=
  (QVariantMap.value item.toMap "name").toString

/-- Modelled from the spec: the item loop of `UniverseLoader::loadSolarSystem`
(`UniverseLoader.h` is not among the sources). Spec §4.4 and §7: every item
either resolves to an entity with its info, or fails and is dropped while its
siblings proceed; a resolved item is registered under its declared name with
`upsert`, so that a redeclared name replaces the prior definition; the names of
the resolved items are returned in document order. `resolve` is the outcome of
resolving one item during this load. -/
def resolveItems {E I : Type} (resolve : QVariant → Option (E × I)) :
    List QVariant → UniverseCatalog E I → List String × UniverseCatalog E I
  | [], catalog => ([], catalog)
  | item :: rest, catalog =>
      match resolve item with
      | some (entity, info) =>
          let resolved := resolveItems resolve rest
            (catalog.upsert (declaredName item) entity info)
          (declaredName item :: resolved.1, resolved.2)
      | none => resolveItems resolve rest catalog

/-- Modelled from the spec: `UniverseLoader::loadSolarSystem(contents, catalog)`
(spec §4.4, `resolve(document, registries)`): the items of the document are
those under its "items" key; `requests` are the external resources the load
found missing. -/
def specLoadSolarSystem {E I : Type} (resolve : QVariant → Option (E × I))
    (requests : List String) (contents : QVariantMap) (catalog : UniverseCatalog E I) :
    SolarSystemLoad E I :=
  let resolved := resolveItems resolve (QVariantMap.value contents "items").toList catalog
  { bodyNames := resolved.1, catalog := resolved.2, resourceRequests := requests }

/-- The collaborators of `loadCatalogFile` with the loader of the
specification. -/
def specCollaborators {E I : Type} (resolve : QVariant → Option (E × I))
    (requests : List String) (TransformSscObject : QVariantMap → QVariantMap)
    (networkTextureLoader : Bool) : Collaborators E I :=
  { loadSolarSystem := specLoadSolarSystem resolve requests
    TransformSscObject := TransformSscObject
    networkTextureLoader := networkTextureLoader }

/-! ## Time controls -/

section TimeControls

variable {α : Type} [LinearOrderedField α]

/-- The function `Cosmographia::faster` (Cosmographia.cpp:437-446), as the new
value of the view's time scale (`m_view3d->setTimeScale(t)`) in terms of the old
one (`m_view3d->timeScale()`). -/
def faster (timeScale : α) : α :=
  let t := timeScale * 10.0
  if t < -1.0e7 then -1.0e7
  else if t > 1.0e7 then 1.0e7
  else t

/-- The function `Cosmographia::slower` (Cosmographia.cpp:449-458). -/
def slower (timeScale : α) : α :=
  let t := timeScale * 0.1
  if t > 0.0 then max 1.0e-3 t
  else if t < 0.0 then min (-1.0e-3) t
  else t

/-- The function `Cosmographia::faster2` (Cosmographia.cpp:461-470). -/
def faster2 (timeScale : α) : α :=
  let t := timeScale * 2.0
  if t < -1.0e7 then -1.0e7
  else if t > 1.0e7 then 1.0e7
  else t

/-- The function `Cosmographia::slower2` (Cosmographia.cpp:473-482). -/
def slower2 (timeScale : α) : α :=
  let t := timeScale * 0.5
  if t > 0.0 then max 1.0e-3 t
  else if t < 0.0 then min (-1.0e-3) t
  else t

/-- The function `Cosmographia::reverseTime` (Cosmographia.cpp:501-505). -/
def reverseTime (timeScale : α) : α := -timeScale

/-- The five time-scale controls. -/
inductive TimeControl where
  | faster
  | slower
  | faster2
  | slower2
  | reverseTime
deriving DecidableEq, Repr

/-- The effect of one control on the time scale. -/
def TimeControl.apply (control : TimeControl) (timeScale : α) : α :=
  match control with
  | TimeControl.faster => Cosmographia.faster timeScale
  | TimeControl.slower => Cosmographia.slower timeScale
  | TimeControl.faster2 => Cosmographia.faster2 timeScale
  | TimeControl.slower2 => Cosmographia.slower2 timeScale
  | TimeControl.reverseTime => Cosmographia.reverseTime timeScale

/-- The time scale after a sequence of controls, applied first to last. -/
def applyControls (controls : List TimeControl) (timeScale : α) : α :=
  controls.foldl (fun t control => control.apply t) timeScale

/-- The set S of time scales: 0, and every t with 1e-3 <= |t| <= 1e7. -/
def timeScaleInRange (t : α) : Prop :=
  t = 0 ∨ (1.0e-3 ≤ |t| ∧ |t| ≤ 1.0e7)

/-- Two scalars have the same sign: both positive, both negative, or both 0. -/
def sameSign (a b : α) : Prop :=
  (0 < a ↔ 0 < b) ∧ (a < 0 ↔ b < 0) ∧ (a = 0 ↔ b = 0)

end TimeControls

/-! ## Dates -/

/-- The time scales of `vesta::GregorianDate` that `Cosmographia.cpp` refers to:
`TimeScale_TDB` by name (line 400), UTC through `UTCDateFromTDBSec`. -/
inductive TimeScale where
  | TimeScale_TDB
  | TimeScale_UTC
deriving DecidableEq, Repr

/-- Modelled from the spec: the class `vesta::GregorianDate`
(`vesta/GregorianDate.h` is not among the sources); the spec names only its TDB
time scale (glossary). It is the record of the eight arguments of the
constructor call at Cosmographia.cpp:398-400, read back by the accessors used at
Cosmographia.cpp:389-390. The fields are integers; their C++ signedness is not
visible in the sources. -/
@[ext]
structure GregorianDate where
  year : Int
  month : Int
  day : Int
  hour : Int
  minute : Int
  second : Int
  usec : Int
  timeScale : TimeScale
deriving DecidableEq, Repr

/-- The type `QDate` of Qt 4: a date of Qt's calendar, or the null date (Julian
day 0) that the constructor yields for a year, month and day that are not a
date. -/
inductive QDate where
  | null
  | date (y m d : Int)
deriving DecidableEq, Repr

/-- The constructor `QDate(y, m, d)`. Which triples are dates is Qt's
`QDate::isValid(y, m, d)`, a parameter. -/
def QDate.new (isValid : Int → Int → Int → Bool) (y m d : Int) : QDate :=
  if isValid y m d then QDate.date y m d else QDate.null

/-- The accessor `QDate::year()`. It has no test for the null date and computes
the year from the Julian day: -4713 for the null date, whose Julian day is 0. -/
def QDate.year : QDate → Int
  | QDate.date y _ _ => y
  | QDate.null => -4713

/-- The accessor `QDate::month()`, computed from the Julian day: 1 for the null
date. -/
def QDate.month : QDate → Int
  | QDate.date _ m _ => m
  | QDate.null => 1

/-- The accessor `QDate::day()`, computed from the Julian day: 1 for the null
date. -/
def QDate.day : QDate → Int
  | QDate.date _ _ d => d
  | QDate.null => 1

/-- The type `QTime` of Qt 4: a time of day, or the invalid time that the
constructor yields for arguments out of range. -/
inductive QTime where
  | invalid
  | time (h m s ms : Int)
deriving DecidableEq, Repr

/-- The constructor `QTime(h, m, s, ms)`: `h` must be in 0..23, `m` and `s` in
0..59 and `ms` in 0..999. -/
def QTime.new (h m s ms : Int) : QTime :=
  if 0 ≤ h ∧ h ≤ 23 ∧ 0 ≤ m ∧ m ≤ 59 ∧ 0 ≤ s ∧ s ≤ 59 ∧ 0 ≤ ms ∧ ms ≤ 999 then
    QTime.time h m s ms
  else QTime.invalid

/-- The accessor `QTime::hour()`: 0 for the invalid time, which reads as no
milliseconds since midnight. -/
def QTime.hour : QTime → Int
  | QTime.time h _ _ _ => h
  | QTime.invalid => 0

/-- The accessor `QTime::minute()`: 0 for the invalid time, which reads as no
milliseconds since midnight. -/
def QTime.minute : QTime → Int
  | QTime.time _ m _ _ => m
  | QTime.invalid => 0

/-- The accessor `QTime::second()`: 0 for the invalid time, which reads as no
milliseconds since midnight. -/
def QTime.second : QTime → Int
  | QTime.time _ _ s _ => s
  | QTime.invalid => 0

/-- The accessor `QTime::msec()`: 0 for the invalid time, which reads as no
milliseconds since midnight. -/
def QTime.msec : QTime → Int
  | QTime.time _ _ _ ms => ms
  | QTime.invalid => 0

/-- The values of `Qt::TimeSpec` that a `QDateTime` is built with. -/
inductive TimeSpec where
  | LocalTime
  | UTC
deriving DecidableEq, Repr

/-- The type `QDateTime`: a date, a time and the time spec they are expressed
in; `date()` and `time()` return the first two. -/
structure QDateTime where
  date : QDate
  time : QTime
  spec : TimeSpec
deriving DecidableEq, Repr

/-- The constructor `QDateTime(date, time, spec)`: when the date is valid and the
time is not, the time is set to midnight. -/
def QDateTime.new (date : QDate) (time : QTime) (spec : TimeSpec) : QDateTime :=
  { date := date
    time := if date ≠ QDate.null ∧ time = QTime.invalid then QTime.time 0 0 0 0 else time
    spec := spec }

/-- The function `vestaDateToQtDate` (Cosmographia.cpp:386-392). The division
`date.usec() / 1000` truncates. -/
def vestaDateToQtDate (isValid : Int → Int → Int → Bool) (date : GregorianDate) : QDateTime :=
  QDateTime.new (QDate.new isValid date.year date.month date.day)
    (QTime.new date.hour date.minute date.second (Int.tdiv date.usec 1000))
    TimeSpec.UTC

/-- The function `qtDateToVestaDate` (Cosmographia.cpp:395-401). -/
def qtDateToVestaDate (d : QDateTime) : GregorianDate :=
  { year := d.date.year
    month := d.date.month
    day := d.date.day
    hour := d.time.hour
    minute := d.time.minute
    second := d.time.second
    usec := d.time.msec * 1000
    timeScale := TimeScale.TimeScale_TDB }

/-! ## Example inputs -/

/-- Example collaborators: a loader that resolves nothing, a transformation
that files every record under the parent "Sol", and a network texture
loader. -/
def exampleCollaborators : Collaborators Nat Nat :=
  { loadSolarSystem := fun _ catalog => ⟨[], catalog, []⟩
    TransformSscObject := fun record => QVariantMap.insert record "_parent" (QVariant.string "Sol")
    networkTextureLoader := true }

/-- Example legacy file: two records, then an object that is not a map, then a
third record. -/
def exampleLegacyFile : CatalogFile :=
  { absolutePath := "/catalogs"
    opens := true
    json := Except.ok QVariant.invalid
    sscObjects :=
      [ QVariant.map [("name", QVariant.string "Ceres")],
        QVariant.map [("name", QVariant.string "Vesta"), ("radius", QVariant.other "262.7")],
        QVariant.string "stray",
        QVariant.map [("name", QVariant.string "Pallas")] ] }

/-- Example of a .json file that does not parse. -/
def exampleBrokenFile : CatalogFile :=
  { absolutePath := "/catalogs"
    opens := true
    json := Except.error (3, "syntax error")
    sscObjects := [] }

/-- Example document: two items, declaring "Earth" and "Moon". -/
def exampleDocument : QVariant :=
  QVariant.map
    [ ("items", QVariant.list
        [ QVariant.map [("name", QVariant.string "Earth")],
          QVariant.map [("name", QVariant.string "Moon"), ("parent", QVariant.string "Earth")] ]),
      ("name", QVariant.string "Solar System") ]

/-- Example of a .json file that parses to the example document. -/
def exampleJsonFile : CatalogFile :=
  { absolutePath := "/catalogs"
    opens := true
    json := Except.ok exampleDocument
    sscObjects := [] }

/-- Example resolver that fails on "Moon": an item resolves, to an entity and an
info that carry the number of the load, only when it declares the name
"Earth". -/
def exampleResolveEarth (load : Nat) (item : QVariant) : Option (Nat × Nat) :=
  if declaredName item = "Earth" then some (load, load) else none

/-- Example resolver: every map item resolves, to an entity and an info that
carry the number of the load. -/
def exampleResolve (load : Nat) : QVariant → Option (Nat × Nat)
  | QVariant.map _ => some (load, load)
  | _ => none

/-- Example ephemeris over the rationals: every body at rest at a point of its
own, the Earth 81 times as massive as the Moon. -/
def exampleEphemeris : JPLEphemeris ℚ :=
  { trajectory := fun body =>
      match body with
      | JplObjectId.Sun => { position := fun _ => ⟨1, 2, 3⟩, period := 0 }
      | JplObjectId.Moon => { position := fun _ => ⟨82, 0, -82⟩, period := 27 }
      | JplObjectId.EarthMoonBarycenter => { position := fun _ => ⟨10, 20, 30⟩, period := 365 }
      | _ => { position := fun _ => ⟨0, 0, 0⟩, period := 1 }
    earthMoonMassRatio := 81 }

/-- Example calendar: the Gregorian calendar, with its leap years, without a
year 0 (`QDate::isValid` rejects every date of year 0). -/
def exampleCalendar (y m d : Int) : Bool :=
  decide (y ≠ 0 ∧ 1 ≤ m ∧ m ≤ 12 ∧ 1 ≤ d ∧
    d ≤ (if m = 2 then (if (y % 4 = 0 ∧ y % 100 ≠ 0) ∨ y % 400 = 0 then 29 else 28)
         else if m = 4 ∨ m = 6 ∨ m = 9 ∨ m = 11 then 30 else 31))

/-- Example date: 1 January 2000, 12:00:00 and 123456 microseconds, TDB. -/
def exampleDate : GregorianDate :=
  { year := 2000, month := 1, day := 1, hour := 12, minute := 0, second := 0,
    usec := 123456, timeScale := TimeScale.TimeScale_TDB }

/-- Example of a date in year 0 of the astronomical year numbering (1 BC):
15 March of year 0, 12:00:00, TDB. -/
def exampleYearZeroDate : GregorianDate :=
  { year := 0, month := 3, day := 15, hour := 12, minute := 0, second := 0,
    usec := 0, timeScale := TimeScale.TimeScale_TDB }

/-! ## Theorems -/

section VectorLemmas

variable {α : Type} [Field α]

theorem Vector3d.combine_two (p q : Vector3d α) (a b : α) :
    (0 : Vector3d α) + a * p + b * q
      = ⟨a * p.x + b * q.x, a * p.y + b * q.y, a * p.z + b * q.z⟩ := by
  show Vector3d.add (Vector3d.add Vector3d.zero (Vector3d.smul a p)) (Vector3d.smul b q) = _
  simp [Vector3d.add, Vector3d.smul, Vector3d.zero]

theorem LinearCombinationTrajectory.position_new (t0 t1 : Trajectory α) (w0 w1 p t : α) :
    ((LinearCombinationTrajectory.new t0 w0 t1 w1).setPeriod p).toTrajectory.position t
      = ⟨w0 * (t0.position t).x + w1 * (t1.position t).x,
         w0 * (t0.position t).y + w1 * (t1.position t).y,
         w0 * (t0.position t).z + w1 * (t1.position t).z⟩ := by
  simp only [LinearCombinationTrajectory.toTrajectory, LinearCombinationTrajectory.position,
    LinearCombinationTrajectory.setPeriod, LinearCombinationTrajectory.new, List.foldl]
  exact Vector3d.combine_two _ _ _ _

end VectorLemmas

/-- C1: for every ephemeris, body id and time t, the trajectory returned by
createSunRelativeTrajectory is the linear combination whose terms are, in order,
(eph.trajectory(id), +1) and (eph.trajectory(Sun), -1), and its position at t is
eph.trajectory(id).position(t) - eph.trajectory(Sun).position(t). -/
theorem createSunRelativeTrajectory_position {α : Type} [Field α]
    (eph : JPLEphemeris α) (id : JplObjectId) (t : α) :
    (∃ orbit : LinearCombinationTrajectory α,
        createSunRelativeTrajectory eph id = orbit.toTrajectory ∧
        orbit.terms = [(eph.trajectory id, 1), (eph.trajectory JplObjectId.Sun, -1)]) ∧
    (createSunRelativeTrajectory eph id).position t
      = (eph.trajectory id).position t - (eph.trajectory JplObjectId.Sun).position t := by
  refine ⟨⟨createSunRelativeOrbit eph id, rfl, rfl⟩, ?_⟩
  unfold createSunRelativeTrajectory createSunRelativeOrbit
  rw [LinearCombinationTrajectory.position_new]
  show _ = Vector3d.sub _ _
  simp only [Vector3d.sub]
  ext <;> simp <;> ring

/-- C3: for every ephemeris and body id, the period of the trajectory returned
by createSunRelativeTrajectory equals eph.trajectory(id).period(); it is the
period passed to setPeriod: replacing the ephemeris's Sun trajectory by any
other changes the period only when the body itself is the Sun. -/
theorem createSunRelativeTrajectory_period {α : Type} [Field α]
    (eph : JPLEphemeris α) (id : JplObjectId) :
    (createSunRelativeTrajectory eph id).period = (eph.trajectory id).period ∧
    ∀ (sun : Trajectory α) (ratio : α),
      (createSunRelativeTrajectory
          { trajectory := fun body => if body = JplObjectId.Sun then sun else eph.trajectory body
            earthMoonMassRatio := ratio } id).period
        = if id = JplObjectId.Sun then sun.period else (eph.trajectory id).period := by
  refine ⟨rfl, fun sun ratio => ?_⟩
  show (if id = JplObjectId.Sun then sun else eph.trajectory id).period = _
  split <;> rfl

/-- C2: for every loaded ephemeris, initialize registers a builtin orbit "Earth"
and a builtin orbit "EMB", and at every time t
Earth.position(t) = E.position(t) - m * M.position(t), with E the trajectory
registered as "EMB", M = eph.trajectory(Moon) and
m = 1/(1 + eph.earthMoonMassRatio()). -/
theorem initializeRun_earth_position {α : Type} [Field α] (eph : JPLEphemeris α) :
    ∃ earth emb : Trajectory α,
      builtinOrbit (initializeRun (some eph)) "Earth" = some earth ∧
      builtinOrbit (initializeRun (some eph)) "EMB" = some emb ∧
      ∀ t : α, earth.position t
        = emb.position t
            - (1 / (1 + eph.earthMoonMassRatio)) * (eph.trajectory JplObjectId.Moon).position t := by
  refine ⟨_, _, rfl, rfl, ?_⟩
  intro t
  rw [LinearCombinationTrajectory.position_new]
  show _ = Vector3d.sub _ (Vector3d.smul _ _)
  simp only [Vector3d.sub, Vector3d.smul]
  ext <;> simp <;> ring

/-- C6: when the ephemeris load fails, initialize registers no builtin orbit and
makes exactly the calls addBuiltinRotationModel("IAU Moon"), the network and
texture-loader set-up, and loadCatalogFile("solarsys.json"); when the load
succeeds, the same calls follow the orbit registrations, which are
addBuiltinOrbit calls only. -/
theorem initializeRun_load_failure {α : Type} [Field α] :
    (initializeRun (none : Option (JPLEphemeris α))
        = [ InitializeCall.addBuiltinRotationModel "IAU Moon" RotationModel.IAULunarRotationModel,
            InitializeCall.setUpNetworkManager,
            InitializeCall.setTextureLoader,
            InitializeCall.loadCatalogFile "solarsys.json" ]) ∧
    builtinOrbits (initializeRun (none : Option (JPLEphemeris α))) = [] ∧
    (∀ name : String, builtinOrbit (initializeRun (none : Option (JPLEphemeris α))) name = none) ∧
    ∀ eph : JPLEphemeris α,
      ∃ orbits : List (InitializeCall α),
        initializeRun (some eph) = orbits ++ initializeRun none ∧
        orbits ≠ [] ∧
        ∀ call ∈ orbits, ∃ name trajectory, call = InitializeCall.addBuiltinOrbit name trajectory := by
  refine ⟨rfl, rfl, fun _ => rfl, fun eph => ⟨registerBuiltinOrbits eph, rfl, ?_, ?_⟩⟩
  · simp [registerBuiltinOrbits]
  · intro call hcall
    simp only [registerBuiltinOrbits, List.mem_cons, List.mem_singleton] at hcall
    rcases hcall with h | h | h | h | h | h | h | h | h | h | h | h | h <;>
      first
        | exact ⟨_, _, h⟩
        | simp at h

/-- C9: for every center c and vectors v0, v1, the ellipse GeneralEllipse(c, v0,
v1) reports center() = c and generatingVectors() equal to the matrix whose row 0
is v0 and whose row 1 is v1, and the points of the ellipse, as the class comment
defines them, are the points c + cos(theta) v0 + sin(theta) v1. -/
theorem GeneralEllipse.new_center_generatingVectors :
    (∀ (α : Type) [Zero α] (c v0 v1 : Vector3d α),
      (GeneralEllipse.new c v0 v1).center = c ∧
      (GeneralEllipse.new c v0 v1).generatingVectors = ⟨v0, v1⟩ ∧
      (GeneralEllipse.new c v0 v1).generatingVectors.row 0 = v0 ∧
      (GeneralEllipse.new c v0 v1).generatingVectors.row 1 = v1) ∧
    ∀ (c v0 v1 p : Vector3d ℝ),
      p ∈ (GeneralEllipse.new c v0 v1).pointSet
        ↔ ∃ theta : ℝ, p = c + Real.cos theta * v0 + Real.sin theta * v1 := by
  refine ⟨fun α _ c v0 v1 => ⟨rfl, rfl, rfl, rfl⟩, fun c v0 v1 p => Iff.rfl⟩

section EllipseLemmas

theorem Vector3d.add_def {α : Type} [Add α] (u v : Vector3d α) :
    u + v = ⟨u.x + v.x, u.y + v.y, u.z + v.z⟩ := rfl

theorem Vector3d.smul_def {α : Type} [Mul α] (c : α) (v : Vector3d α) :
    c * v = (⟨c * v.x, c * v.y, c * v.z⟩ : Vector3d α) := rfl

theorem GeneralEllipse.principalSemiAxes_new (math : MathLibrary ℝ) (h : math.Exact)
    (c v0 v1 : Vector3d ℝ) :
    (GeneralEllipse.new c v0 v1).principalSemiAxes math
      = ⟨Real.cos (GeneralEllipse.principalAngle math v0 v1) * v0
            + Real.sin (GeneralEllipse.principalAngle math v0 v1) * v1,
         (-Real.sin (GeneralEllipse.principalAngle math v0 v1)) * v0
            + Real.cos (GeneralEllipse.principalAngle math v0 v1) * v1⟩ := by
  rw [← h.cos_eq, ← h.sin_eq]
  rfl

theorem GeneralEllipse.two_mul_principalAngle (math : MathLibrary ℝ) (h : math.Exact)
    (v0 v1 : Vector3d ℝ) :
    2 * GeneralEllipse.principalAngle math v0 v1
      = Complex.arg ⟨v0.squaredNorm - v1.squaredNorm, 2 * v0.dot v1⟩ := by
  unfold GeneralEllipse.principalAngle
  rw [h.atan2_eq]
  ring

theorem GeneralEllipse.cos_two_principalAngle (math : MathLibrary ℝ) (h : math.Exact)
    (v0 v1 : Vector3d ℝ)
    (hz : (⟨v0.squaredNorm - v1.squaredNorm, 2 * v0.dot v1⟩ : ℂ) ≠ 0) :
    Real.cos (2 * GeneralEllipse.principalAngle math v0 v1)
      = (v0.squaredNorm - v1.squaredNorm)
          / Complex.abs ⟨v0.squaredNorm - v1.squaredNorm, 2 * v0.dot v1⟩ := by
  rw [GeneralEllipse.two_mul_principalAngle math h, Complex.cos_arg hz]

theorem GeneralEllipse.sin_two_principalAngle (math : MathLibrary ℝ) (h : math.Exact)
    (v0 v1 : Vector3d ℝ) :
    Real.sin (2 * GeneralEllipse.principalAngle math v0 v1)
      = (2 * v0.dot v1)
          / Complex.abs ⟨v0.squaredNorm - v1.squaredNorm, 2 * v0.dot v1⟩ := by
  rw [GeneralEllipse.two_mul_principalAngle math h, Complex.sin_arg]

theorem GeneralEllipse.dot_rotated (v0 v1 : Vector3d ℝ) (theta : ℝ) :
    (Real.cos theta * v0 + Real.sin theta * v1).dot
        ((-Real.sin theta) * v0 + Real.cos theta * v1)
      = Real.cos (2 * theta) * v0.dot v1
          - Real.sin (2 * theta) * (v0.squaredNorm - v1.squaredNorm) / 2 := by
  rw [Real.cos_two_mul, Real.sin_two_mul]
  have hs := Real.sin_sq_add_cos_sq theta
  simp only [Vector3d.add_def, Vector3d.smul_def, Vector3d.dot, Vector3d.squaredNorm]
  linear_combination
    (-(v0.x * v1.x + v0.y * v1.y + v0.z * v1.z)) * hs

/-- The model of principalSemiAxes is a diagonalization for every pair of
generating vectors, skew or not: its two rows are orthogonal. -/
theorem GeneralEllipse.rows_orthogonal (math : MathLibrary ℝ) (h : math.Exact)
    (c v0 v1 : Vector3d ℝ) :
    (((GeneralEllipse.new c v0 v1).principalSemiAxes math).row 0).dot
      (((GeneralEllipse.new c v0 v1).principalSemiAxes math).row 1) = 0 := by
  rw [GeneralEllipse.principalSemiAxes_new math h]
  show Vector3d.dot (Real.cos _ * v0 + Real.sin _ * v1) ((-Real.sin _) * v0 + Real.cos _ * v1) = 0
  rw [GeneralEllipse.dot_rotated]
  by_cases hz : (⟨v0.squaredNorm - v1.squaredNorm, 2 * v0.dot v1⟩ : ℂ) = 0
  · have hre : v0.squaredNorm - v1.squaredNorm = 0 := congrArg Complex.re hz
    have him : 2 * v0.dot v1 = 0 := congrArg Complex.im hz
    have hd : v0.dot v1 = 0 := by linarith
    rw [hre, hd]
    ring
  · rw [GeneralEllipse.cos_two_principalAngle math h v0 v1 hz,
      GeneralEllipse.sin_two_principalAngle math h]
    have habs : Complex.abs ⟨v0.squaredNorm - v1.squaredNorm, 2 * v0.dot v1⟩ ≠ 0 := by
      simpa using hz
    field_simp
    ring

/-- The model of principalSemiAxes orders the axes major first for every pair of
generating vectors: row 0 is at least as long as row 1. -/
theorem GeneralEllipse.rows_major_first (math : MathLibrary ℝ) (h : math.Exact)
    (c v0 v1 : Vector3d ℝ) :
    (((GeneralEllipse.new c v0 v1).principalSemiAxes math).row 1).norm math
      ≤ (((GeneralEllipse.new c v0 v1).principalSemiAxes math).row 0).norm math := by
  rw [GeneralEllipse.principalSemiAxes_new math h]
  unfold Vector3d.norm
  rw [h.sqrt_eq, h.sqrt_eq]
  apply Real.sqrt_le_sqrt
  show Vector3d.squaredNorm ((-Real.sin _) * v0 + Real.cos _ * v1)
    ≤ Vector3d.squaredNorm (Real.cos _ * v0 + Real.sin _ * v1)
  have key : ∀ theta : ℝ,
      Vector3d.squaredNorm (Real.cos theta * v0 + Real.sin theta * v1)
        - Vector3d.squaredNorm ((-Real.sin theta) * v0 + Real.cos theta * v1)
      = Real.cos (2 * theta) * (v0.squaredNorm - v1.squaredNorm)
          + Real.sin (2 * theta) * (2 * v0.dot v1) := by
    intro theta
    rw [Real.cos_two_mul, Real.sin_two_mul]
    have hs := Real.sin_sq_add_cos_sq theta
    simp only [Vector3d.add_def, Vector3d.smul_def, Vector3d.dot, Vector3d.squaredNorm]
    linear_combination
      (-(v0.x * v0.x + v0.y * v0.y + v0.z * v0.z)
        + (v1.x * v1.x + v1.y * v1.y + v1.z * v1.z)) * hs
  have hk := key (GeneralEllipse.principalAngle math v0 v1)
  by_cases hz : (⟨v0.squaredNorm - v1.squaredNorm, 2 * v0.dot v1⟩ : ℂ) = 0
  · have hre : v0.squaredNorm - v1.squaredNorm = 0 := congrArg Complex.re hz
    have him : 2 * v0.dot v1 = 0 := congrArg Complex.im hz
    rw [hre, him] at hk
    linarith
  · rw [GeneralEllipse.cos_two_principalAngle math h v0 v1 hz,
      GeneralEllipse.sin_two_principalAngle math h] at hk
    have habs : 0 < Complex.abs ⟨v0.squaredNorm - v1.squaredNorm, 2 * v0.dot v1⟩ := by
      simpa using hz
    have e1 : ∀ a r : ℝ, 0 < r → 0 ≤ a / r * a := by
      intro a r hr
      have : a / r * a = a * a / r := by ring
      rw [this]
      exact div_nonneg (mul_self_nonneg a) hr.le
    have hnn := add_nonneg (e1 (v0.squaredNorm - v1.squaredNorm) _ habs)
      (e1 (2 * v0.dot v1) _ habs)
    linarith

theorem Vector3d.squaredNorm_nonneg (v : Vector3d ℝ) : 0 ≤ v.squaredNorm := by
  unfold Vector3d.squaredNorm Vector3d.dot
  nlinarith [mul_self_nonneg v.x, mul_self_nonneg v.y, mul_self_nonneg v.z]

theorem GeneralEllipse.principalAngle_orthogonal (math : MathLibrary ℝ) (h : math.Exact)
    (v0 v1 : Vector3d ℝ) (horth : v0.dot v1 = 0) (hle : v1.squaredNorm ≤ v0.squaredNorm) :
    GeneralEllipse.principalAngle math v0 v1 = 0 := by
  unfold GeneralEllipse.principalAngle
  rw [h.atan2_eq, horth]
  have hz : (⟨v0.squaredNorm - v1.squaredNorm, 2 * 0⟩ : ℂ)
      = ((v0.squaredNorm - v1.squaredNorm : ℝ) : ℂ) := by
    apply Complex.ext <;> simp
  rw [hz, Complex.arg_ofReal_of_nonneg (by linarith)]
  simp

theorem GeneralEllipse.principalAngle_self (math : MathLibrary ℝ) (h : math.Exact)
    (v : Vector3d ℝ) (hv : 0 < v.squaredNorm) :
    GeneralEllipse.principalAngle math v v = Real.pi / 4 := by
  unfold GeneralEllipse.principalAngle
  rw [h.atan2_eq]
  have harg : Complex.arg ⟨v.squaredNorm - v.squaredNorm, 2 * v.dot v⟩ = Real.pi / 2 := by
    rw [Complex.arg_eq_pi_div_two_iff]
    refine ⟨by simp, ?_⟩
    show 0 < 2 * v.dot v
    unfold Vector3d.squaredNorm at hv
    linarith
  rw [harg]
  ring

theorem Vector3d.squaredNorm_pos_of_ne_zero (v : Vector3d ℝ) (hv : v ≠ 0) :
    0 < v.squaredNorm := by
  rcases lt_or_eq_of_le (Vector3d.squaredNorm_nonneg v) with h | h
  · exact h
  · exfalso
    apply hv
    unfold Vector3d.squaredNorm Vector3d.dot at h
    have hx : v.x = 0 := by nlinarith [mul_self_nonneg v.x, mul_self_nonneg v.y, mul_self_nonneg v.z]
    have hy : v.y = 0 := by nlinarith [mul_self_nonneg v.x, mul_self_nonneg v.y, mul_self_nonneg v.z]
    have hz : v.z = 0 := by nlinarith [mul_self_nonneg v.x, mul_self_nonneg v.y, mul_self_nonneg v.z]
    exact Vector3d.ext hx hy hz

theorem MathLibrary.exact_real :
    MathLibrary.Exact ⟨fun y x => Complex.arg ⟨x, y⟩, Real.cos, Real.sin, Real.sqrt⟩ :=
  ⟨fun _ _ => rfl, fun _ => rfl, fun _ => rfl, fun _ => rfl⟩

end EllipseLemmas

/-- C7: with an exact math library, for every center and every pair of
generating vectors v0, v1 that are orthogonal with |v0| = a >= |v1| = b,
principalSemiAxes of GeneralEllipse(center, v0, v1) returns two vectors of length
a and b in this order, orthogonal to each other, each a linear combination of v0
and v1. (principalSemiAxes is modelled from the spec.) -/
theorem GeneralEllipse.principalSemiAxes_of_orthogonal (math : MathLibrary ℝ)
    (hexact : math.Exact) (center v0 v1 : Vector3d ℝ) (a b : ℝ)
    (horth : v0.dot v1 = 0) (ha : v0.norm math = a) (hb : v1.norm math = b) (hab : b ≤ a) :
    (((GeneralEllipse.new center v0 v1).principalSemiAxes math).row 0).norm math = a ∧
    (((GeneralEllipse.new center v0 v1).principalSemiAxes math).row 1).norm math = b ∧
    (((GeneralEllipse.new center v0 v1).principalSemiAxes math).row 0).dot
      (((GeneralEllipse.new center v0 v1).principalSemiAxes math).row 1) = 0 ∧
    (∃ s t : ℝ,
      ((GeneralEllipse.new center v0 v1).principalSemiAxes math).row 0 = s * v0 + t * v1) ∧
    (∃ s t : ℝ,
      ((GeneralEllipse.new center v0 v1).principalSemiAxes math).row 1 = s * v0 + t * v1) := by
  have hle : v1.squaredNorm ≤ v0.squaredNorm := by
    have h1 : v1.norm math ≤ v0.norm math := by rw [ha, hb]; exact hab
    unfold Vector3d.norm at h1
    rw [hexact.sqrt_eq, hexact.sqrt_eq] at h1
    exact (Real.sqrt_le_sqrt_iff (Vector3d.squaredNorm_nonneg v0)).mp h1
  have hangle := GeneralEllipse.principalAngle_orthogonal math hexact v0 v1 horth hle
  have hrow0 : ((GeneralEllipse.new center v0 v1).principalSemiAxes math).row 0 = v0 := by
    rw [GeneralEllipse.principalSemiAxes_new math hexact, hangle]
    show Real.cos 0 * v0 + Real.sin 0 * v1 = v0
    rw [Vector3d.add_def, Vector3d.smul_def, Vector3d.smul_def]
    ext <;> simp
  have hrow1 : ((GeneralEllipse.new center v0 v1).principalSemiAxes math).row 1 = v1 := by
    rw [GeneralEllipse.principalSemiAxes_new math hexact, hangle]
    show (-Real.sin 0) * v0 + Real.cos 0 * v1 = v1
    rw [Vector3d.add_def, Vector3d.smul_def, Vector3d.smul_def]
    ext <;> simp
  refine ⟨by rw [hrow0, ha], by rw [hrow1, hb],
    GeneralEllipse.rows_orthogonal math hexact center v0 v1, ?_, ?_⟩
  · exact ⟨_, _, rfl⟩
  · exact ⟨_, _, rfl⟩

theorem GeneralEllipse.principalSemiAxes_of_orthogonal_witness :
    (MathLibrary.Exact ⟨fun y x => Complex.arg ⟨x, y⟩, Real.cos, Real.sin, Real.sqrt⟩ ∧
      Vector3d.dot (⟨2, 0, 0⟩ : Vector3d ℝ) ⟨0, 1, 0⟩ = 0 ∧
      Vector3d.norm ⟨fun y x => Complex.arg ⟨x, y⟩, Real.cos, Real.sin, Real.sqrt⟩
        ⟨2, 0, 0⟩ = 2 ∧
      Vector3d.norm ⟨fun y x => Complex.arg ⟨x, y⟩, Real.cos, Real.sin, Real.sqrt⟩
        ⟨0, 1, 0⟩ = 1 ∧
      (1 : ℝ) ≤ 2) ∧
    (((GeneralEllipse.new ⟨5, 6, 7⟩ ⟨2, 0, 0⟩ ⟨0, 1, 0⟩).principalSemiAxes
        ⟨fun y x => Complex.arg ⟨x, y⟩, Real.cos, Real.sin, Real.sqrt⟩).row 0).norm
      ⟨fun y x => Complex.arg ⟨x, y⟩, Real.cos, Real.sin, Real.sqrt⟩ = 2 ∧
    (((GeneralEllipse.new ⟨5, 6, 7⟩ ⟨2, 0, 0⟩ ⟨0, 1, 0⟩).principalSemiAxes
        ⟨fun y x => Complex.arg ⟨x, y⟩, Real.cos, Real.sin, Real.sqrt⟩).row 1).norm
      ⟨fun y x => Complex.arg ⟨x, y⟩, Real.cos, Real.sin, Real.sqrt⟩ = 1 :=
  have h0 : Vector3d.dot (⟨2, 0, 0⟩ : Vector3d ℝ) ⟨0, 1, 0⟩ = 0 := by
    norm_num [Vector3d.dot]
  have h1 : Vector3d.norm ⟨fun y x => Complex.arg ⟨x, y⟩, Real.cos, Real.sin, Real.sqrt⟩
      ⟨2, 0, 0⟩ = 2 := by
    have h : Vector3d.squaredNorm (⟨2, 0, 0⟩ : Vector3d ℝ) = 2 * 2 := by
      norm_num [Vector3d.squaredNorm, Vector3d.dot]
    show Real.sqrt (Vector3d.squaredNorm ⟨2, 0, 0⟩) = 2
    rw [h, Real.sqrt_mul_self (by norm_num)]
  have h2 : Vector3d.norm ⟨fun y x => Complex.arg ⟨x, y⟩, Real.cos, Real.sin, Real.sqrt⟩
      ⟨0, 1, 0⟩ = 1 := by
    have h : Vector3d.squaredNorm (⟨0, 1, 0⟩ : Vector3d ℝ) = 1 * 1 := by
      norm_num [Vector3d.squaredNorm, Vector3d.dot]
    show Real.sqrt (Vector3d.squaredNorm ⟨0, 1, 0⟩) = 1
    rw [h, Real.sqrt_mul_self (by norm_num)]
  have h3 : (1 : ℝ) ≤ 2 := by norm_num
  have h := GeneralEllipse.principalSemiAxes_of_orthogonal
    ⟨fun y x => Complex.arg ⟨x, y⟩, Real.cos, Real.sin, Real.sqrt⟩ MathLibrary.exact_real
    ⟨5, 6, 7⟩ ⟨2, 0, 0⟩ ⟨0, 1, 0⟩ 2 1 h0 h1 h2 h3
  ⟨⟨MathLibrary.exact_real, h0, h1, h2, h3⟩, h.1, h.2.1⟩

/-- C8: with an exact math library, for every center and every non-zero vector
v, principalSemiAxes of GeneralEllipse(center, v, v) is defined
(principalSemiAxes is a total function) and its second row, the minor axis, has
length 0. (principalSemiAxes is modelled from the spec.) -/
theorem GeneralEllipse.principalSemiAxes_degenerate (math : MathLibrary ℝ)
    (hexact : math.Exact) (center v : Vector3d ℝ) (hv : v ≠ 0) :
    ∃ axes : Matrix2x3 ℝ,
      (GeneralEllipse.new center v v).principalSemiAxes math = axes ∧
      (axes.row 1).norm math = 0 := by
  refine ⟨_, rfl, ?_⟩
  rw [GeneralEllipse.principalSemiAxes_new math hexact,
    GeneralEllipse.principalAngle_self math hexact v (Vector3d.squaredNorm_pos_of_ne_zero v hv)]
  show Vector3d.norm math ((-Real.sin (Real.pi / 4)) * v + Real.cos (Real.pi / 4) * v) = 0
  rw [Real.sin_pi_div_four, Real.cos_pi_div_four]
  have hzero : (-(√2 / 2)) * v + (√2 / 2) * v = (0 : Vector3d ℝ) := by
    rw [Vector3d.add_def, Vector3d.smul_def, Vector3d.smul_def]
    show _ = Vector3d.zero
    unfold Vector3d.zero
    ext <;> simp
  rw [hzero]
  show math.sqrt (Vector3d.squaredNorm Vector3d.zero) = 0
  rw [hexact.sqrt_eq]
  simp [Vector3d.squaredNorm, Vector3d.dot, Vector3d.zero]

theorem GeneralEllipse.principalSemiAxes_degenerate_witness :
    MathLibrary.Exact ⟨fun y x => Complex.arg ⟨x, y⟩, Real.cos, Real.sin, Real.sqrt⟩ ∧
    (⟨3, 0, 4⟩ : Vector3d ℝ) ≠ 0 ∧
    ∃ axes : Matrix2x3 ℝ,
      (GeneralEllipse.new ⟨1, 1, 1⟩ ⟨3, 0, 4⟩ ⟨3, 0, 4⟩).principalSemiAxes
          ⟨fun y x => Complex.arg ⟨x, y⟩, Real.cos, Real.sin, Real.sqrt⟩ = axes ∧
      (axes.row 1).norm ⟨fun y x => Complex.arg ⟨x, y⟩, Real.cos, Real.sin, Real.sqrt⟩ = 0 :=
  have h0 : (⟨3, 0, 4⟩ : Vector3d ℝ) ≠ 0 := by
    intro h
    have hx : (3 : ℝ) = 0 := congrArg Vector3d.x h
    norm_num at hx
  ⟨MathLibrary.exact_real, h0,
    GeneralEllipse.principalSemiAxes_degenerate _ MathLibrary.exact_real ⟨1, 1, 1⟩ ⟨3, 0, 4⟩ h0⟩

section CatalogLemmas

theorem QVariantMap.value_insert_self (m : QVariantMap) (key : String) (v : QVariant) :
    QVariantMap.value (QVariantMap.insert m key v) key = v := by
  induction m with
  | nil => simp [QVariantMap.insert, QVariantMap.value]
  | cons entry rest ih =>
      obtain ⟨k, w⟩ := entry
      unfold QVariantMap.insert
      by_cases h1 : key < k
      · simp [h1, QVariantMap.value]
      · by_cases h2 : k = key
        · simp [h1, h2, QVariantMap.value]
        · simp [h1, h2, QVariantMap.value, ih]

theorem QVariantMap.value_insert_ne (m : QVariantMap) (key other : String) (v : QVariant)
    (h : other ≠ key) :
    QVariantMap.value (QVariantMap.insert m key v) other = QVariantMap.value m other := by
  have h' : ¬ key = other := fun e => h e.symm
  induction m with
  | nil => simp [QVariantMap.insert, QVariantMap.value, h']
  | cons entry rest ih =>
      obtain ⟨k, w⟩ := entry
      unfold QVariantMap.insert
      by_cases h1 : key < k
      · simp [h1, QVariantMap.value, h']
      · by_cases h2 : k = key
        · subst h2
          simp [h1, QVariantMap.value, h']
        · by_cases h3 : k = other
          · subst h3
            simp [h1, h2, QVariantMap.value]
          · simp [h1, h2, h3, QVariantMap.value, ih]

theorem CatalogParser.nextSscObject_nil :
    (CatalogParser.mk []).nextSscObject = (QVariant.invalid, CatalogParser.mk []) := rfl

theorem CatalogParser.nextSscObject_cons (obj : QVariant) (rest : List QVariant) :
    (CatalogParser.mk (obj :: rest)).nextSscObject = (obj, CatalogParser.mk rest) := rfl

theorem sscItemsLoop_map (T : QVariantMap → QVariantMap) (record : QVariantMap)
    (parser : CatalogParser) (items : List QVariant) :
    sscItemsLoop T (QVariant.map record) parser items
      = sscItemsLoop T parser.nextSscObject.1 parser.nextSscObject.2
          (items ++ [QVariant.map (sscRecord T record)]) := by
  rw [sscItemsLoop]

theorem sscItemsLoop_not_map (T : QVariantMap → QVariantMap) (obj : QVariant)
    (parser : CatalogParser) (items : List QVariant) (h : obj.isMap = false) :
    sscItemsLoop T obj parser items = items := by
  cases obj with
  | map record => simp [QVariant.isMap] at h
  | invalid => rw [sscItemsLoop]; intro entries he; cases he
  | string s => rw [sscItemsLoop]; intro entries he; cases he
  | other text => rw [sscItemsLoop]; intro entries he; cases he
  | list l => rw [sscItemsLoop]; intro entries he; cases he

theorem leadingRecords_not_map (obj : QVariant) (rest : List QVariant)
    (h : obj.isMap = false) : leadingRecords (obj :: rest) = [] := by
  cases obj with
  | map record => simp [QVariant.isMap] at h
  | invalid => rfl
  | string s => rfl
  | other text => rfl
  | list l => rfl

theorem sscItemsLoop_eq (T : QVariantMap → QVariantMap) (objs : List QVariant)
    (items : List QVariant) :
    sscItemsLoop T (CatalogParser.mk objs).nextSscObject.1
        (CatalogParser.mk objs).nextSscObject.2 items
      = items ++ (leadingRecords objs).map (fun record => QVariant.map (sscRecord T record)) := by
  induction objs generalizing items with
  | nil =>
      rw [CatalogParser.nextSscObject_nil, sscItemsLoop_not_map T QVariant.invalid _ _ rfl]
      simp [leadingRecords]
  | cons obj rest ih =>
      rw [CatalogParser.nextSscObject_cons]
      cases hobj : obj.isMap with
      | false =>
          rw [sscItemsLoop_not_map T _ _ _ hobj, leadingRecords_not_map obj rest hobj]
          simp
      | true =>
          cases obj with
          | map record =>
              rw [sscItemsLoop_map, ih]
              simp [leadingRecords]
          | invalid => simp [QVariant.isMap] at hobj
          | string s => simp [QVariant.isMap] at hobj
          | other text => simp [QVariant.isMap] at hobj
          | list l => simp [QVariant.isMap] at hobj

theorem endsWith_ne_empty (fileName suffix : String) (hs : suffix ≠ "")
    (h : endsWith (toLower fileName) suffix = true) : fileName ≠ "" := by
  intro he
  subst he
  apply hs
  unfold endsWith toLower at h
  simp at h
  cases suffix with
  | mk data =>
      simp at h
      simp [h]

theorem endsWith_ssc_not_json (s : String) (h : endsWith s ".ssc" = true) :
    endsWith s ".json" = false := by
  unfold endsWith at *
  cases hr : s.data.reverse with
  | nil => rfl
  | cons c rest =>
      rw [hr] at h
      have hc : c = 'c' := by
        simp [List.isPrefixOf] at h
        exact h.1.symm
      subst hc
      simp [List.isPrefixOf]

theorem loadedContents_append {E I : Type} (xs ys : List (Call E I)) :
    loadedContents (xs ++ ys) = loadedContents xs ++ loadedContents ys := by
  induction xs with
  | nil => rfl
  | cons c rest ih => cases c <;> simp [loadedContents, ih]

theorem replacedEntities_append {E I : Type} (xs ys : List (Call E I)) :
    replacedEntities (xs ++ ys) = replacedEntities xs ++ replacedEntities ys := by
  induction xs with
  | nil => rfl
  | cons c rest ih => cases c <;> simp [replacedEntities, ih]

theorem loadedContents_replaceEntities {E I : Type} (catalog : UniverseCatalog E I)
    (names : List String) : loadedContents (replaceEntities catalog names) = [] := by
  induction names with
  | nil => rfl
  | cons name rest ih =>
      unfold replaceEntities
      cases catalog.find name <;> simp [loadedContents, ih]

theorem loadedContents_get {E I : Type} (urls : List String) :
    loadedContents (urls.map (Call.get : String → Call E I)) = [] := by
  induction urls with
  | nil => rfl
  | cons url rest ih => simp [loadedContents, ih]

theorem loadedContents_loadAndShow {E I : Type} (env : Collaborators E I)
    (contents : QVariantMap) (m_catalog : UniverseCatalog E I) :
    loadedContents (loadAndShow env contents m_catalog).2 = [contents] := by
  simp [loadAndShow, loadedContents_append, loadedContents, loadedContents_replaceEntities,
    loadedContents_get]

theorem loadedContents_opened {E I : Type} (b : Bool) (path : String) :
    loadedContents
      ([ Call.clearResourceRequests, Call.setDataSearchPath path,
         Call.setTextureSearchPath path, Call.setModelSearchPath path ]
        ++ (if b then [(Call.setLocalSearchPatch path : Call E I)] else [])) = [] := by
  cases b <;> rfl

theorem loadedContents_legacy {E I : Type} (b : Bool) (p q r s : String) :
    loadedContents
      ([ Call.setDataSearchPath p, Call.setTextureSearchPath q, Call.setModelSearchPath r ]
        ++ (if b then [(Call.setLocalSearchPatch s : Call E I)] else [])) = [] := by
  cases b <;> rfl

theorem loadCatalogFile_legacy_run {E I : Type} (env : Collaborators E I) (file : CatalogFile)
    (fileName : String) (m_catalog : UniverseCatalog E I)
    (hssc : endsWith (toLower fileName) ".ssc" = true) (hopen : file.opens = true) :
    loadCatalogFile env file fileName m_catalog
      = ((loadAndShow env (sscContents env.TransformSscObject fileName file.sscObjects)
            m_catalog).1,
         ([ Call.clearResourceRequests,
            Call.setDataSearchPath file.absolutePath,
            Call.setTextureSearchPath file.absolutePath,
            Call.setModelSearchPath file.absolutePath ]
          ++ (if env.networkTextureLoader then
                [Call.setLocalSearchPatch file.absolutePath] else []))
         ++ ([ Call.setDataSearchPath (file.absolutePath ++ "/data"),
               Call.setTextureSearchPath (file.absolutePath ++ "/textures/medres"),
               Call.setModelSearchPath (file.absolutePath ++ "/models") ]
             ++ (if env.networkTextureLoader then
                   [Call.setLocalSearchPatch (file.absolutePath ++ "/textures/medres")]
                 else []))
         ++ (loadAndShow env (sscContents env.TransformSscObject fileName file.sscObjects)
              m_catalog).2) := by
  have hne : fileName ≠ "" := endsWith_ne_empty fileName ".ssc" (by decide) hssc
  have hjson := endsWith_ssc_not_json _ hssc
  unfold loadCatalogFile
  simp only [hne, hopen, hjson, hssc, if_false, if_true, Bool.true_eq_false, Bool.false_eq_true]

end CatalogLemmas

/-- C4: when loadCatalogFile reads a legacy (.ssc) file that opens, exactly one
document is handed to loadSolarSystem; its "name" is the file name and its
"items" is a list with one map per record parsed before the first object that is
not a map, in stream order. The item of a record is the transformed record with
"name" replaced by the transformed record's "_parent" text, "/", and the name the
transformed record had; every other field, "_parent" among them, is as the
transformation left it. -/
theorem loadCatalogFile_ssc_document {E I : Type} (env : Collaborators E I)
    (file : CatalogFile) (fileName : String) (m_catalog : UniverseCatalog E I)
    (hssc : endsWith (toLower fileName) ".ssc" = true) (hopen : file.opens = true) :
    ∃ (contents : QVariantMap) (items : List QVariant),
      loadedContents (loadCatalogFile env file fileName m_catalog).2 = [contents] ∧
      QVariantMap.value contents "name" = QVariant.string fileName ∧
      QVariantMap.value contents "items" = QVariant.list items ∧
      items.length = (leadingRecords file.sscObjects).length ∧
      ∀ (k : Nat) (record : QVariantMap), (leadingRecords file.sscObjects)[k]? = some record →
        ∃ item : QVariantMap,
          items[k]? = some (QVariant.map item) ∧
          QVariantMap.value item "name"
            = QVariant.string
                ((QVariantMap.value (env.TransformSscObject record) "_parent").toString ++ "/"
                  ++ (QVariantMap.value (env.TransformSscObject record) "name").toString) ∧
          QVariantMap.value item "_parent"
            = QVariantMap.value (env.TransformSscObject record) "_parent" ∧
          ∀ key : String, key ≠ "name" →
            QVariantMap.value item key
              = QVariantMap.value (env.TransformSscObject record) key := by
  refine ⟨sscContents env.TransformSscObject fileName file.sscObjects,
    (leadingRecords file.sscObjects).map
      (fun record => QVariant.map (sscRecord env.TransformSscObject record)), ?_, ?_, ?_, ?_, ?_⟩
  · rw [loadCatalogFile_legacy_run env file fileName m_catalog hssc hopen]
    show loadedContents (_ ++ _ ++ _) = _
    rw [loadedContents_append, loadedContents_append, loadedContents_opened,
      loadedContents_legacy, loadedContents_loadAndShow]
    rfl
  · unfold sscContents
    rw [QVariantMap.value_insert_ne _ _ _ _ (by decide), QVariantMap.value_insert_self]
  · unfold sscContents
    rw [QVariantMap.value_insert_self, sscItemsLoop_eq]
    simp
  · simp
  · intro k record hk
    refine ⟨sscRecord env.TransformSscObject record, ?_, ?_, ?_, ?_⟩
    · simp [hk]
    · exact QVariantMap.value_insert_self _ _ _
    · exact QVariantMap.value_insert_ne _ _ _ _ (by decide)
    · intro key hkey
      exact QVariantMap.value_insert_ne _ _ _ _ hkey

theorem loadCatalogFile_ssc_document_witness :
    endsWith (toLower "Asteroids.SSC") ".ssc" = true ∧ exampleLegacyFile.opens = true ∧
    ∃ (contents : QVariantMap) (items : List QVariant),
      loadedContents
        (loadCatalogFile exampleCollaborators exampleLegacyFile "Asteroids.SSC" ⟨[]⟩).2
          = [contents] ∧
      QVariantMap.value contents "name" = QVariant.string "Asteroids.SSC" ∧
      QVariantMap.value contents "items" = QVariant.list items ∧
      items.length = 2 :=
  have h := loadCatalogFile_ssc_document exampleCollaborators exampleLegacyFile
    "Asteroids.SSC" ⟨[]⟩ (by decide) rfl
  ⟨by decide, rfl,
    h.elim fun contents h => h.elim fun items h => ⟨contents, items, h.1, h.2.1, h.2.2.1, h.2.2.2.1⟩⟩

/-- C5: for every .json catalog file that opens and whose parse fails,
loadCatalogFile leaves the catalog as it was, and the calls it makes are the
search-path set-up followed by one warning whose text is "Line <n>: <message>",
n being the parser's error line and message its error string; no call is
loadSolarSystem and no call is replaceEntity. -/
theorem loadCatalogFile_json_parse_error {E I : Type} (env : Collaborators E I)
    (file : CatalogFile) (fileName : String) (m_catalog : UniverseCatalog E I)
    (errorLine : Int) (errorString : String)
    (hjson : endsWith (toLower fileName) ".json" = true) (hopen : file.opens = true)
    (hparse : file.json = Except.error (errorLine, errorString)) :
    (loadCatalogFile env file fileName m_catalog).1 = m_catalog ∧
    (loadCatalogFile env file fileName m_catalog).2
      = [ Call.clearResourceRequests,
          Call.setDataSearchPath file.absolutePath,
          Call.setTextureSearchPath file.absolutePath,
          Call.setModelSearchPath file.absolutePath ]
        ++ (if env.networkTextureLoader then
              [Call.setLocalSearchPatch file.absolutePath] else [])
        ++ [ Call.warning "Solar System File Error"
              ("Line " ++ toString errorLine ++ ": " ++ errorString) ] ∧
    loadedContents (loadCatalogFile env file fileName m_catalog).2 = [] ∧
    replacedEntities (loadCatalogFile env file fileName m_catalog).2 = [] := by
  have hne : fileName ≠ "" := endsWith_ne_empty fileName ".json" (by decide) hjson
  have hrun : loadCatalogFile env file fileName m_catalog
      = (m_catalog,
         [ Call.clearResourceRequests,
           Call.setDataSearchPath file.absolutePath,
           Call.setTextureSearchPath file.absolutePath,
           Call.setModelSearchPath file.absolutePath ]
         ++ (if env.networkTextureLoader then
               [Call.setLocalSearchPatch file.absolutePath] else [])
         ++ [ Call.warning "Solar System File Error"
               ("Line " ++ toString errorLine ++ ": " ++ errorString) ]) := by
    unfold loadCatalogFile
    simp only [hne, hopen, hjson, hparse, if_false, if_true, Bool.true_eq_false]
  rw [hrun]
  refine ⟨rfl, rfl, ?_, ?_⟩
  · cases env.networkTextureLoader <;> rfl
  · cases env.networkTextureLoader <;> rfl

theorem loadCatalogFile_json_parse_error_witness :
    endsWith (toLower "solarsys.json") ".json" = true ∧ exampleBrokenFile.opens = true ∧
    exampleBrokenFile.json = Except.error (3, "syntax error") ∧
    (loadCatalogFile exampleCollaborators exampleBrokenFile "solarsys.json" ⟨[("Earth", 1, 2)]⟩).2
      = [ Call.clearResourceRequests,
          Call.setDataSearchPath "/catalogs",
          Call.setTextureSearchPath "/catalogs",
          Call.setModelSearchPath "/catalogs",
          Call.setLocalSearchPatch "/catalogs",
          Call.warning "Solar System File Error" "Line 3: syntax error" ] :=
  ⟨by decide, rfl, rfl,
    (loadCatalogFile_json_parse_error exampleCollaborators exampleBrokenFile "solarsys.json"
      ⟨[("Earth", 1, 2)]⟩ 3 "syntax error" (by decide) rfl rfl).2.1⟩

section RegistryLemmas

variable {E I : Type}

theorem UniverseCatalog.find?_upsertEntries_self (name : String) (e : E) (i : I)
    (l : List (String × E × I)) :
    (UniverseCatalog.upsertEntries name e i l).find? (fun entry => entry.1 == name)
      = some (name, e, i) := by
  induction l with
  | nil => simp [UniverseCatalog.upsertEntries]
  | cons entry rest ih =>
      unfold UniverseCatalog.upsertEntries
      by_cases h : entry.1 = name
      · simp [h]
      · simp [h, List.find?_cons, ih]

theorem UniverseCatalog.find?_upsertEntries_ne (name other : String) (e : E) (i : I)
    (l : List (String × E × I)) (h : other ≠ name) :
    (UniverseCatalog.upsertEntries name e i l).find? (fun entry => entry.1 == other)
      = l.find? (fun entry => entry.1 == other) := by
  have h' : ¬ name = other := fun he => h he.symm
  induction l with
  | nil => simp [UniverseCatalog.upsertEntries, h']
  | cons entry rest ih =>
      unfold UniverseCatalog.upsertEntries
      by_cases h1 : entry.1 = name
      · have h2 : ¬ entry.1 = other := fun he => h (he.symm.trans h1)
        simp [h1, List.find?_cons, h', h2]
      · by_cases h2 : entry.1 = other
        · simp [h1, List.find?_cons, h2, h]
        · simp [h1, List.find?_cons, h2, ih]

theorem UniverseCatalog.names_upsertEntries (name : String) (e : E) (i : I)
    (l : List (String × E × I)) :
    (UniverseCatalog.upsertEntries name e i l).map (fun entry => entry.1)
      = if name ∈ l.map (fun entry => entry.1) then l.map (fun entry => entry.1)
        else l.map (fun entry => entry.1) ++ [name] := by
  induction l with
  | nil => simp [UniverseCatalog.upsertEntries]
  | cons entry rest ih =>
      unfold UniverseCatalog.upsertEntries
      by_cases h1 : entry.1 = name
      · simp [h1]
      · have h1' : ¬ name = entry.1 := fun he => h1 he.symm
        simp only [h1, if_false, List.map_cons, List.mem_cons, h1', false_or, ih]
        split <;> simp

theorem UniverseCatalog.names_upsert_nodup (catalog : UniverseCatalog E I) (name : String)
    (e : E) (i : I) (h : catalog.names.Nodup) : (catalog.upsert name e i).names.Nodup := by
  unfold UniverseCatalog.names UniverseCatalog.upsert at *
  rw [UniverseCatalog.names_upsertEntries]
  split
  · exact h
  · rename_i hmem
    rw [List.nodup_append]
    refine ⟨h, List.nodup_singleton _, ?_⟩
    intro a ha hb
    rw [List.mem_singleton] at hb
    subst hb
    exact hmem ha

theorem UniverseCatalog.find_upsert_self (catalog : UniverseCatalog E I) (name : String)
    (e : E) (i : I) :
    (catalog.upsert name e i).find name = some e ∧
    (catalog.upsert name e i).findInfo name = some i := by
  unfold UniverseCatalog.find UniverseCatalog.findInfo UniverseCatalog.upsert
  simp [UniverseCatalog.find?_upsertEntries_self]

theorem UniverseCatalog.find_upsert_ne (catalog : UniverseCatalog E I) (name other : String)
    (e : E) (i : I) (h : other ≠ name) :
    (catalog.upsert name e i).find other = catalog.find other ∧
    (catalog.upsert name e i).findInfo other = catalog.findInfo other := by
  unfold UniverseCatalog.find UniverseCatalog.findInfo UniverseCatalog.upsert
  simp [UniverseCatalog.find?_upsertEntries_ne _ _ _ _ _ h]

theorem UniverseCatalog.mem_names_of_find (catalog : UniverseCatalog E I) (name : String)
    (e : E) (h : catalog.find name = some e) : name ∈ catalog.names := by
  unfold UniverseCatalog.find at h
  cases hf : catalog.entries.find? (fun entry => entry.1 == name) with
  | none => simp [hf] at h
  | some entry =>
      have hmem := List.mem_of_find?_eq_some hf
      have hname := List.find?_some hf
      simp at hname
      unfold UniverseCatalog.names
      rw [← hname]
      exact List.mem_map_of_mem _ hmem

theorem resolveItems_nodup (resolve : QVariant → Option (E × I)) (items : List QVariant)
    (catalog : UniverseCatalog E I) (h : catalog.names.Nodup) :
    (resolveItems resolve items catalog).2.names.Nodup := by
  induction items generalizing catalog with
  | nil => exact h
  | cons item rest ih =>
      unfold resolveItems
      cases hr : resolve item with
      | none => exact ih catalog h
      | some pair =>
          obtain ⟨e, i⟩ := pair
          exact ih _ (UniverseCatalog.names_upsert_nodup catalog _ e i h)

theorem resolveItems_find_unchanged (resolve : QVariant → Option (E × I))
    (items : List QVariant) (catalog : UniverseCatalog E I) (name : String)
    (h : name ∉ (resolveItems resolve items catalog).1) :
    (resolveItems resolve items catalog).2.find name = catalog.find name ∧
    (resolveItems resolve items catalog).2.findInfo name = catalog.findInfo name := by
  induction items generalizing catalog with
  | nil => exact ⟨rfl, rfl⟩
  | cons item rest ih =>
      unfold resolveItems at h ⊢
      cases hr : resolve item with
      | none =>
          rw [hr] at h
          exact ih catalog h
      | some pair =>
          obtain ⟨e, i⟩ := pair
          rw [hr] at h
          simp only [List.mem_cons, not_or] at h
          have hrest := ih (catalog.upsert (declaredName item) e i) h.2
          have hne := UniverseCatalog.find_upsert_ne catalog (declaredName item) name e i h.1
          exact ⟨hrest.1.trans hne.1, hrest.2.trans hne.2⟩

theorem resolveItems_find (resolve : QVariant → Option (E × I)) (items : List QVariant)
    (catalog : UniverseCatalog E I) (name : String)
    (h : name ∈ (resolveItems resolve items catalog).1) :
    ∃ item ∈ items, declaredName item = name ∧ ∃ (e : E) (i : I),
      resolve item = some (e, i) ∧
      (resolveItems resolve items catalog).2.find name = some e ∧
      (resolveItems resolve items catalog).2.findInfo name = some i := by
  induction items generalizing catalog with
  | nil => simp [resolveItems] at h
  | cons item rest ih =>
      unfold resolveItems at h ⊢
      cases hr : resolve item with
      | none =>
          rw [hr] at h
          obtain ⟨item', hmem, hrest⟩ := ih catalog h
          exact ⟨item', List.mem_cons_of_mem _ hmem, hrest⟩
      | some pair =>
          obtain ⟨e, i⟩ := pair
          rw [hr] at h
          by_cases hlater : name ∈ (resolveItems resolve rest
              (catalog.upsert (declaredName item) e i)).1
          · obtain ⟨item', hmem, hrest⟩ := ih _ hlater
            exact ⟨item', List.mem_cons_of_mem _ hmem, hrest⟩
          · have hname : name = declaredName item := by
              simp only [List.mem_cons] at h
              rcases h with h | h
              · exact h
              · exact absurd h hlater
            have hkeep := resolveItems_find_unchanged resolve rest _ name hlater
            have hself := UniverseCatalog.find_upsert_self catalog (declaredName item) e i
            refine ⟨item, List.mem_cons_self _ _, hname.symm, e, i, hr, ?_, ?_⟩
            · rw [hname] at hkeep ⊢
              exact hkeep.1.trans hself.1
            · rw [hname] at hkeep ⊢
              exact hkeep.2.trans hself.2

theorem resolveItems_mem_names (resolve : QVariant → Option (E × I)) (items : List QVariant)
    (catalog : UniverseCatalog E I) (item : QVariant) (hmem : item ∈ items)
    (hres : (resolve item).isSome = true) :
    declaredName item ∈ (resolveItems resolve items catalog).1 := by
  induction items generalizing catalog with
  | nil => simp at hmem
  | cons head rest ih =>
      unfold resolveItems
      rcases List.mem_cons.mp hmem with h | h
      · subst h
        cases hr : resolve item with
        | none => simp [hr] at hres
        | some pair => simp
      · cases hr : resolve head with
        | none => exact ih catalog h
        | some pair => exact List.mem_cons_of_mem _ (ih _ h)

theorem replacedEntities_replaceEntities (catalog : UniverseCatalog E I) (names : List String)
    (name : String) (e : E) (hmem : name ∈ names) (hfind : catalog.find name = some e) :
    (e, catalog.findInfo name) ∈ replacedEntities (replaceEntities catalog names) := by
  induction names with
  | nil => simp at hmem
  | cons head rest ih =>
      unfold replaceEntities
      rcases List.mem_cons.mp hmem with h | h
      · subst h
        simp [hfind, replacedEntities]
      · cases hh : catalog.find head with
        | none => exact ih h
        | some e' =>
            simp only [replacedEntities]
            exact List.mem_cons_of_mem _ (ih h)

end RegistryLemmas

section ReloadLemmas

variable {E I : Type}

theorem replacedEntities_opened (b : Bool) (path : String) :
    replacedEntities
      ([ Call.clearResourceRequests, Call.setDataSearchPath path,
         Call.setTextureSearchPath path, Call.setModelSearchPath path ]
        ++ (if b then [(Call.setLocalSearchPatch path : Call E I)] else [])) = [] := by
  cases b <;> rfl

theorem loadCatalogFile_parsed_run (env : Collaborators E I) (file : CatalogFile)
    (fileName : String) (document : QVariant) (m_catalog : UniverseCatalog E I)
    (hjson : endsWith (toLower fileName) ".json" = true) (hopen : file.opens = true)
    (hparse : file.json = Except.ok document) (hfull : document.toMap.isEmpty = false) :
    loadCatalogFile env file fileName m_catalog
      = ((loadAndShow env document.toMap m_catalog).1,
         ([ Call.clearResourceRequests,
            Call.setDataSearchPath file.absolutePath,
            Call.setTextureSearchPath file.absolutePath,
            Call.setModelSearchPath file.absolutePath ]
          ++ (if env.networkTextureLoader then
                [Call.setLocalSearchPatch file.absolutePath] else []))
         ++ (loadAndShow env document.toMap m_catalog).2) := by
  have hne : fileName ≠ "" := endsWith_ne_empty fileName ".json" (by decide) hjson
  unfold loadCatalogFile
  simp only [hne, hopen, hjson, hparse, hfull, if_false, if_true, Bool.true_eq_false,
    Bool.false_eq_true]

theorem loadCatalogFile_empty_run (env : Collaborators E I) (file : CatalogFile)
    (fileName : String) (document : QVariant) (m_catalog : UniverseCatalog E I)
    (hjson : endsWith (toLower fileName) ".json" = true) (hopen : file.opens = true)
    (hparse : file.json = Except.ok document) (hempty : document.toMap.isEmpty = true) :
    (loadCatalogFile env file fileName m_catalog).1 = m_catalog := by
  have hne : fileName ≠ "" := endsWith_ne_empty fileName ".json" (by decide) hjson
  unfold loadCatalogFile
  simp only [hne, hopen, hjson, hparse, hempty, if_false, if_true, Bool.true_eq_false]

theorem loadAndShow_spec (resolve : QVariant → Option (E × I)) (requests : List String)
    (T : QVariantMap → QVariantMap) (b : Bool) (contents : QVariantMap)
    (catalog : UniverseCatalog E I) :
    (loadAndShow (specCollaborators resolve requests T b) contents catalog).1
      = (resolveItems resolve (QVariantMap.value contents "items").toList catalog).2 ∧
    replacedEntities (loadAndShow (specCollaborators resolve requests T b) contents catalog).2
      = replacedEntities
          (replaceEntities
            (resolveItems resolve (QVariantMap.value contents "items").toList catalog).2
            (resolveItems resolve (QVariantMap.value contents "items").toList catalog).1) := by
  refine ⟨rfl, ?_⟩
  unfold loadAndShow specCollaborators specLoadSolarSystem
  simp only [replacedEntities_append]
  have hget : ∀ urls : List String,
      replacedEntities (urls.map (Call.get : String → Call E I)) = [] := by
    intro urls
    induction urls with
    | nil => rfl
    | cons url rest ih => simp [replacedEntities, ih]
  rw [hget]
  simp [replacedEntities]

end ReloadLemmas

/-- C10, as amended: loading the same .json document twice through
loadCatalogFile, starting from a catalog without duplicate names, leaves a
catalog without duplicate names. Every name the second load returns has exactly
one entry; find and findInfo return for it an entity and info that the second
load produced for an item declaring that name, and the view received that entity
through replaceEntity during the second load. The names the second load returns
are the names declared by the items it resolves; any other name, a declared name
whose item the second load does not resolve among them, keeps what the catalog
held for it before the second load. (loadSolarSystem and the catalog registry
are modelled from the spec.) -/
theorem loadCatalogFile_twice {E I : Type}
    (first second : QVariant → Option (E × I)) (requests₁ requests₂ : List String)
    (T : QVariantMap → QVariantMap) (b : Bool) (file : CatalogFile) (fileName : String)
    (document : QVariant) (m_catalog : UniverseCatalog E I)
    (run₁ run₂ : UniverseCatalog E I × List (Call E I))
    (hjson : endsWith (toLower fileName) ".json" = true) (hopen : file.opens = true)
    (hparse : file.json = Except.ok document) (hnodup : m_catalog.names.Nodup)
    (h₁ : run₁ = loadCatalogFile (specCollaborators first requests₁ T b) file fileName m_catalog)
    (h₂ : run₂ = loadCatalogFile (specCollaborators second requests₂ T b) file fileName run₁.1) :
    run₂.1.names.Nodup ∧
    (∀ name ∈ (specLoadSolarSystem second requests₂ document.toMap run₁.1).bodyNames,
        run₂.1.names.count name = 1 ∧
        ∃ item ∈ (QVariantMap.value document.toMap "items").toList,
          declaredName item = name ∧
          ∃ (e : E) (i : I),
            second item = some (e, i) ∧
            run₂.1.find name = some e ∧
            run₂.1.findInfo name = some i ∧
            (e, some i) ∈ replacedEntities run₂.2) ∧
    (∀ item ∈ (QVariantMap.value document.toMap "items").toList,
      (second item).isSome = true →
        declaredName item
          ∈ (specLoadSolarSystem second requests₂ document.toMap run₁.1).bodyNames) ∧
    ∀ name : String,
      name ∉ (specLoadSolarSystem second requests₂ document.toMap run₁.1).bodyNames →
      run₂.1.find name = run₁.1.find name ∧ run₂.1.findInfo name = run₁.1.findInfo name := by
  have hnames : (specLoadSolarSystem second requests₂ document.toMap run₁.1).bodyNames
      = (resolveItems second (QVariantMap.value document.toMap "items").toList run₁.1).1 := rfl
  rw [hnames]
  refine ⟨?_, ?_, fun item hitem hres => resolveItems_mem_names second _ run₁.1 item hitem hres,
    ?_⟩
  · -- no duplicate names
    cases hempty : document.toMap.isEmpty with
    | true =>
        have hrun₁ : run₁.1 = m_catalog := by
          rw [h₁]
          exact loadCatalogFile_empty_run _ file fileName document m_catalog hjson hopen hparse
            hempty
        have hrun₂ : run₂.1 = m_catalog := by
          rw [h₂, hrun₁]
          exact loadCatalogFile_empty_run _ file fileName document m_catalog hjson hopen hparse
            hempty
        rw [hrun₂]
        exact hnodup
    | false =>
        have hcat₁ : run₁.1
            = (resolveItems first (QVariantMap.value document.toMap "items").toList
                m_catalog).2 := by
          rw [h₁, loadCatalogFile_parsed_run _ file fileName document m_catalog hjson hopen
            hparse hempty]
          rfl
        have hcat₂ : run₂.1
            = (resolveItems second (QVariantMap.value document.toMap "items").toList
                run₁.1).2 := by
          rw [h₂, loadCatalogFile_parsed_run _ file fileName document run₁.1 hjson hopen
            hparse hempty]
          rfl
        rw [hcat₂]
        apply resolveItems_nodup
        rw [hcat₁]
        exact resolveItems_nodup first _ m_catalog hnodup
  · -- the names the second load returns
    intro name hname
    cases hempty : document.toMap.isEmpty with
    | true =>
        have hmap : document.toMap = [] := by
          cases hd : document.toMap with
          | nil => rfl
          | cons x xs => simp [hd] at hempty
        rw [hmap] at hname
        simp [QVariantMap.value, QVariant.toList, resolveItems] at hname
    | false =>
        have hcat₁ : run₁.1
            = (resolveItems first (QVariantMap.value document.toMap "items").toList
                m_catalog).2 := by
          rw [h₁, loadCatalogFile_parsed_run _ file fileName document m_catalog hjson hopen
            hparse hempty]
          rfl
        have hnodup₁ : run₁.1.names.Nodup := by
          rw [hcat₁]
          exact resolveItems_nodup first _ m_catalog hnodup
        have e₂ := loadCatalogFile_parsed_run (specCollaborators second requests₂ T b) file
          fileName document run₁.1 hjson hopen hparse hempty
        have s₂ := loadAndShow_spec second requests₂ T b document.toMap run₁.1
        have hcat₂ : run₂.1
            = (resolveItems second (QVariantMap.value document.toMap "items").toList
                run₁.1).2 := by
          rw [h₂, e₂]
          exact s₂.1
        have hcalls₂ : replacedEntities run₂.2
            = replacedEntities
                (replaceEntities
                  (resolveItems second (QVariantMap.value document.toMap "items").toList
                    run₁.1).2
                  (resolveItems second (QVariantMap.value document.toMap "items").toList
                    run₁.1).1) := by
          rw [h₂, e₂]
          show replacedEntities (_ ++ _) = _
          rw [replacedEntities_append]
          show replacedEntities
            ([ Call.clearResourceRequests, Call.setDataSearchPath file.absolutePath,
               Call.setTextureSearchPath file.absolutePath,
               Call.setModelSearchPath file.absolutePath ]
              ++ (if b then [(Call.setLocalSearchPatch file.absolutePath : Call E I)] else []))
            ++ _ = _
          rw [replacedEntities_opened, List.nil_append]
          exact s₂.2
        have hnodup₂ : run₂.1.names.Nodup := by
          rw [hcat₂]
          exact resolveItems_nodup second _ run₁.1 hnodup₁
        obtain ⟨item, hitem, hdecl, e, i, hsecond, hfind, hinfo⟩ :=
          resolveItems_find second _ run₁.1 name hname
        rw [← hcat₂] at hfind hinfo
        refine ⟨?_, item, hitem, hdecl, e, i, hsecond, hfind, hinfo, ?_⟩
        · exact List.count_eq_one_of_mem hnodup₂
            (UniverseCatalog.mem_names_of_find run₂.1 _ e hfind)
        · rw [hcalls₂, ← hcat₂, ← hinfo]
          exact replacedEntities_replaceEntities run₂.1 _ name e hname hfind
  · -- every other name
    intro name hname
    cases hempty : document.toMap.isEmpty with
    | true =>
        have hrun₂ : run₂.1 = run₁.1 := by
          rw [h₂]
          exact loadCatalogFile_empty_run _ file fileName document run₁.1 hjson hopen hparse
            hempty
        rw [hrun₂]
        exact ⟨rfl, rfl⟩
    | false =>
        have hcat₂ : run₂.1
            = (resolveItems second (QVariantMap.value document.toMap "items").toList
                run₁.1).2 := by
          rw [h₂, loadCatalogFile_parsed_run _ file fileName document run₁.1 hjson hopen
            hparse hempty]
          rfl
        rw [hcat₂]
        exact resolveItems_find_unchanged second _ run₁.1 name hname

theorem loadCatalogFile_twice_witness :
    endsWith (toLower "solarsys.json") ".json" = true ∧ exampleJsonFile.opens = true ∧
    exampleJsonFile.json = Except.ok exampleDocument ∧
    (UniverseCatalog.names (⟨[("Earth", 0, 0)]⟩ : UniverseCatalog Nat Nat)).Nodup ∧
    (loadCatalogFile (specCollaborators (exampleResolve 2) [] id true) exampleJsonFile
        "solarsys.json"
        (loadCatalogFile (specCollaborators (exampleResolve 1) [] id true) exampleJsonFile
          "solarsys.json" ⟨[("Earth", 0, 0)]⟩).1).1.names.count "Earth" = 1 :=
  have hnodup : (UniverseCatalog.names (⟨[("Earth", 0, 0)]⟩ : UniverseCatalog Nat Nat)).Nodup := by
    simp [UniverseCatalog.names]
  ⟨by decide, rfl, rfl, hnodup,
    ((loadCatalogFile_twice (exampleResolve 1) (exampleResolve 2) [] [] id true exampleJsonFile
        "solarsys.json" exampleDocument ⟨[("Earth", 0, 0)]⟩ _ _ (by decide) rfl rfl hnodup
        rfl rfl).2.1 "Earth" (List.mem_cons_self _ _)).1⟩

/-- C11: for every loaded ephemeris, the period of the builtin "Earth" trajectory
equals the period of the builtin "EMB" trajectory, which equals
eph.trajectory(EarthMoonBarycenter).period(); replacing the ephemeris's Sun and
Moon trajectories and its mass ratio by any others leaves the period of "Earth"
as it is. -/
theorem initializeRun_earth_period {α : Type} [Field α] (eph : JPLEphemeris α) :
    ∃ earth emb : Trajectory α,
      builtinOrbit (initializeRun (some eph)) "Earth" = some earth ∧
      builtinOrbit (initializeRun (some eph)) "EMB" = some emb ∧
      earth.period = emb.period ∧
      emb.period = (eph.trajectory JplObjectId.EarthMoonBarycenter).period ∧
      ∀ (sun moon : Trajectory α) (ratio : α),
        ∃ other : Trajectory α,
          builtinOrbit
              (initializeRun
                (some
                  { trajectory := fun body =>
                      if body = JplObjectId.Sun then sun
                      else if body = JplObjectId.Moon then moon
                      else eph.trajectory body
                    earthMoonMassRatio := ratio }))
              "Earth" = some other ∧
          other.period = earth.period := by
  refine ⟨_, _, rfl, rfl, rfl, rfl, fun sun moon ratio => ⟨_, rfl, rfl⟩⟩

/-- C13: after a successful ephemeris load, initialize registers exactly twelve
builtin orbits, under pairwise distinct names: "Sun" and "Moon" are the raw
ephemeris trajectories of Sun and Moon; "EMB", "Mercury", "Venus", "Mars",
"Jupiter", "Saturn", "Uranus", "Neptune" and "Pluto" are the Sun-relative
trajectories of the ephemeris bodies of the same name (EMB of
EarthMoonBarycenter); "Earth" is the combination of the "EMB" trajectory with
weight 1 and the raw Moon trajectory with weight -1/(1 + earthMoonMassRatio),
with the period of "EMB". -/
theorem initializeRun_builtin_orbits {α : Type} [Field α] (eph : JPLEphemeris α) :
    builtinOrbits (initializeRun (some eph))
      = [ ("Sun", eph.trajectory JplObjectId.Sun),
          ("Moon", eph.trajectory JplObjectId.Moon),
          ("EMB", createSunRelativeTrajectory eph JplObjectId.EarthMoonBarycenter),
          ("Mercury", createSunRelativeTrajectory eph JplObjectId.Mercury),
          ("Venus", createSunRelativeTrajectory eph JplObjectId.Venus),
          ("Mars", createSunRelativeTrajectory eph JplObjectId.Mars),
          ("Jupiter", createSunRelativeTrajectory eph JplObjectId.Jupiter),
          ("Saturn", createSunRelativeTrajectory eph JplObjectId.Saturn),
          ("Uranus", createSunRelativeTrajectory eph JplObjectId.Uranus),
          ("Neptune", createSunRelativeTrajectory eph JplObjectId.Neptune),
          ("Pluto", createSunRelativeTrajectory eph JplObjectId.Pluto),
          ("Earth",
            ((LinearCombinationTrajectory.new
                (createSunRelativeTrajectory eph JplObjectId.EarthMoonBarycenter) 1
                (eph.trajectory JplObjectId.Moon)
                (-(1 / (1 + eph.earthMoonMassRatio)))).setPeriod
              (createSunRelativeTrajectory eph JplObjectId.EarthMoonBarycenter).period).toTrajectory) ] ∧
    (builtinOrbits (initializeRun (some eph))).length = 12 ∧
    ((builtinOrbits (initializeRun (some eph))).map (fun entry => entry.1)).Nodup ∧
    builtinOrbit (initializeRun (some eph)) "Sun" = some (eph.trajectory JplObjectId.Sun) ∧
    builtinOrbit (initializeRun (some eph)) "Moon" = some (eph.trajectory JplObjectId.Moon) ∧
    builtinOrbit (initializeRun (some eph)) "EMB"
      = some (createSunRelativeTrajectory eph JplObjectId.EarthMoonBarycenter) ∧
    builtinOrbit (initializeRun (some eph)) "Mercury"
      = some (createSunRelativeTrajectory eph JplObjectId.Mercury) ∧
    builtinOrbit (initializeRun (some eph)) "Venus"
      = some (createSunRelativeTrajectory eph JplObjectId.Venus) ∧
    builtinOrbit (initializeRun (some eph)) "Mars"
      = some (createSunRelativeTrajectory eph JplObjectId.Mars) ∧
    builtinOrbit (initializeRun (some eph)) "Jupiter"
      = some (createSunRelativeTrajectory eph JplObjectId.Jupiter) ∧
    builtinOrbit (initializeRun (some eph)) "Saturn"
      = some (createSunRelativeTrajectory eph JplObjectId.Saturn) ∧
    builtinOrbit (initializeRun (some eph)) "Uranus"
      = some (createSunRelativeTrajectory eph JplObjectId.Uranus) ∧
    builtinOrbit (initializeRun (some eph)) "Neptune"
      = some (createSunRelativeTrajectory eph JplObjectId.Neptune) ∧
    builtinOrbit (initializeRun (some eph)) "Pluto"
      = some (createSunRelativeTrajectory eph JplObjectId.Pluto) ∧
    builtinOrbit (initializeRun (some eph)) "Earth"
      = some
          ((LinearCombinationTrajectory.new
              (createSunRelativeTrajectory eph JplObjectId.EarthMoonBarycenter) 1
              (eph.trajectory JplObjectId.Moon)
              (-(1 / (1 + eph.earthMoonMassRatio)))).setPeriod
            (createSunRelativeTrajectory eph JplObjectId.EarthMoonBarycenter).period).toTrajectory := by
  refine ⟨rfl, rfl, ?_, rfl, rfl, rfl, rfl, rfl, rfl, rfl, rfl, rfl, rfl, rfl, rfl⟩
  show (["Sun", "Moon", "EMB", "Mercury", "Venus", "Mars", "Jupiter", "Saturn", "Uranus",
    "Neptune", "Pluto", "Earth"] : List String).Nodup
  decide

/-- C15: for every loaded ephemeris and every time t, the builtin "Earth"
trajectory is the combination whose first term is the Sun-relative EMB
combination with weight 1 and whose second term is the raw ephemeris Moon
trajectory with weight -m, m = 1/(1 + earthMoonMassRatio), and it evaluates to
eph(EarthMoonBarycenter).position(t) - eph(Sun).position(t)
- m * eph(Moon).position(t). -/
theorem initializeRun_earth_nested {α : Type} [Field α] (eph : JPLEphemeris α) :
    ∃ earthOrbit : LinearCombinationTrajectory α,
      builtinOrbit (initializeRun (some eph)) "Earth" = some earthOrbit.toTrajectory ∧
      earthOrbit.terms
        = [ ((createSunRelativeOrbit eph JplObjectId.EarthMoonBarycenter).toTrajectory, 1),
            (eph.trajectory JplObjectId.Moon, -(1 / (1 + eph.earthMoonMassRatio))) ] ∧
      (createSunRelativeOrbit eph JplObjectId.EarthMoonBarycenter).terms
        = [ (eph.trajectory JplObjectId.EarthMoonBarycenter, 1),
            (eph.trajectory JplObjectId.Sun, -1) ] ∧
      ∀ t : α, earthOrbit.toTrajectory.position t
        = (eph.trajectory JplObjectId.EarthMoonBarycenter).position t
            - (eph.trajectory JplObjectId.Sun).position t
            - (1 / (1 + eph.earthMoonMassRatio)) * (eph.trajectory JplObjectId.Moon).position t := by
  refine ⟨(LinearCombinationTrajectory.new
      (createSunRelativeTrajectory eph JplObjectId.EarthMoonBarycenter) 1
      (eph.trajectory JplObjectId.Moon) (-(1 / (1 + eph.earthMoonMassRatio)))).setPeriod
        (createSunRelativeTrajectory eph JplObjectId.EarthMoonBarycenter).period,
    rfl, rfl, rfl, ?_⟩
  intro t
  rw [LinearCombinationTrajectory.position_new]
  unfold createSunRelativeTrajectory createSunRelativeOrbit
  rw [LinearCombinationTrajectory.position_new]
  show _ = Vector3d.sub (Vector3d.sub _ _) (Vector3d.smul _ _)
  simp only [Vector3d.sub, Vector3d.smul]
  ext <;> simp <;> ring

/-- C12: for positive masses Me and Mm with earthMoonMassRatio = Me/Mm, the
weight m = 1/(1 + massRatio) of the builtin "Earth" trajectory equals
Mm/(Me + Mm), so 0 < m < 1; and at every time at which the EMB term is the
mass-weighted mean (Me*E + Mm*L)/(Me + Mm) and the Moon term is L - E, the
"Earth" trajectory evaluates to E. -/
theorem initializeRun_earth_mass_fraction {α : Type} [LinearOrderedField α]
    (eph : JPLEphemeris α) (Me Mm : α) (hMe : 0 < Me) (hMm : 0 < Mm)
    (hratio : eph.earthMoonMassRatio = Me / Mm) :
    1 / (1 + eph.earthMoonMassRatio) = Mm / (Me + Mm) ∧
    0 < 1 / (1 + eph.earthMoonMassRatio) ∧
    1 / (1 + eph.earthMoonMassRatio) < 1 ∧
    ∃ earthOrbit : LinearCombinationTrajectory α,
      builtinOrbit (initializeRun (some eph)) "Earth" = some earthOrbit.toTrajectory ∧
      earthOrbit.terms
        = [ (createSunRelativeTrajectory eph JplObjectId.EarthMoonBarycenter, 1),
            (eph.trajectory JplObjectId.Moon, -(Mm / (Me + Mm))) ] ∧
      ∀ (t : α) (E L : Vector3d α),
        (createSunRelativeTrajectory eph JplObjectId.EarthMoonBarycenter).position t
            = (1 / (Me + Mm)) * (Me * E + Mm * L) →
        (eph.trajectory JplObjectId.Moon).position t = L - E →
        earthOrbit.toTrajectory.position t = E := by
  have hsum : 0 < Me + Mm := add_pos hMe hMm
  have hMm0 : Mm ≠ 0 := ne_of_gt hMm
  have hsum0 : Me + Mm ≠ 0 := ne_of_gt hsum
  have hm : 1 / (1 + eph.earthMoonMassRatio) = Mm / (Me + Mm) := by
    rw [hratio]
    have hden : 1 + Me / Mm = (Me + Mm) / Mm := by
      field_simp
      ring
    rw [hden, one_div, inv_div]
  refine ⟨hm, ?_, ?_, ?_⟩
  · rw [hm]
    exact div_pos hMm hsum
  · rw [hm, div_lt_one hsum]
    linarith
  · refine ⟨(LinearCombinationTrajectory.new
        (createSunRelativeTrajectory eph JplObjectId.EarthMoonBarycenter) 1
        (eph.trajectory JplObjectId.Moon) (-(1 / (1 + eph.earthMoonMassRatio)))).setPeriod
          (createSunRelativeTrajectory eph JplObjectId.EarthMoonBarycenter).period,
      rfl, ?_, ?_⟩
    · rw [hm]
      rfl
    · intro t E L hemb hmoon
      rw [LinearCombinationTrajectory.position_new, hemb, hmoon, hm]
      have hne : Me + Mm ≠ 0 := ne_of_gt hsum
      simp only [Vector3d.add_def, Vector3d.smul_def]
      show (⟨_, _, _⟩ : Vector3d α) = E
      ext
      · show 1 * (1 / (Me + Mm) * (Me * E.x + Mm * L.x))
          + -(Mm / (Me + Mm)) * (Vector3d.sub L E).x = E.x
        simp only [Vector3d.sub]
        field_simp
        ring
      · show 1 * (1 / (Me + Mm) * (Me * E.y + Mm * L.y))
          + -(Mm / (Me + Mm)) * (Vector3d.sub L E).y = E.y
        simp only [Vector3d.sub]
        field_simp
        ring
      · show 1 * (1 / (Me + Mm) * (Me * E.z + Mm * L.z))
          + -(Mm / (Me + Mm)) * (Vector3d.sub L E).z = E.z
        simp only [Vector3d.sub]
        field_simp
        ring

theorem initializeRun_earth_mass_fraction_witness :
    ((0 : ℚ) < 81 ∧ (0 : ℚ) < 1 ∧ exampleEphemeris.earthMoonMassRatio = 81 / 1) ∧
    1 / (1 + exampleEphemeris.earthMoonMassRatio) = (1 : ℚ) / (81 + 1) ∧
    0 < 1 / (1 + exampleEphemeris.earthMoonMassRatio) ∧
    1 / (1 + exampleEphemeris.earthMoonMassRatio) < 1 :=
  have h0 : (0 : ℚ) < 81 := by norm_num
  have h1 : (0 : ℚ) < 1 := by norm_num
  have h2 : exampleEphemeris.earthMoonMassRatio = 81 / 1 := by
    norm_num [exampleEphemeris]
  have h := initializeRun_earth_mass_fraction exampleEphemeris 81 1 h0 h1 h2
  ⟨⟨h0, h1, h2⟩, h.1, h.2.1, h.2.2.1⟩

/-- C10, as stated, fails for a declared name whose item the second load does
not resolve. The example document declares "Earth" and "Moon". When the first
load resolves both items and the second only "Earth", the entry of "Moon" after
the second load is the one the first load produced, and the view receives no
entity for "Moon" during the second load. When neither load resolves "Moon",
the catalog has no entry for it. -/
theorem loadCatalogFile_reload_unresolved_item :
    (QVariant.map [("name", QVariant.string "Moon"), ("parent", QVariant.string "Earth")]
        ∈ (QVariantMap.value exampleDocument.toMap "items").toList ∧
      declaredName
        (QVariant.map [("name", QVariant.string "Moon"), ("parent", QVariant.string "Earth")])
          = "Moon" ∧
      exampleResolveEarth 2
        (QVariant.map [("name", QVariant.string "Moon"), ("parent", QVariant.string "Earth")])
          = none) ∧
    ((loadCatalogFile (specCollaborators (exampleResolveEarth 2) [] id true) exampleJsonFile
        "solarsys.json"
        (loadCatalogFile (specCollaborators (exampleResolve 1) [] id true) exampleJsonFile
          "solarsys.json" ⟨[]⟩).1).1.entries = [("Earth", 2, 2), ("Moon", 1, 1)] ∧
      (loadCatalogFile (specCollaborators (exampleResolveEarth 2) [] id true) exampleJsonFile
        "solarsys.json"
        (loadCatalogFile (specCollaborators (exampleResolve 1) [] id true) exampleJsonFile
          "solarsys.json" ⟨[]⟩).1).1.find "Moon" = some 1 ∧
      replacedEntities
        (loadCatalogFile (specCollaborators (exampleResolveEarth 2) [] id true) exampleJsonFile
          "solarsys.json"
          (loadCatalogFile (specCollaborators (exampleResolve 1) [] id true) exampleJsonFile
            "solarsys.json" ⟨[]⟩).1).2 = [(2, some 2)]) ∧
    ((loadCatalogFile (specCollaborators (exampleResolveEarth 2) [] id true) exampleJsonFile
        "solarsys.json"
        (loadCatalogFile (specCollaborators (exampleResolveEarth 1) [] id true) exampleJsonFile
          "solarsys.json" ⟨[]⟩).1).1.entries = [("Earth", 2, 2)] ∧
      (loadCatalogFile (specCollaborators (exampleResolveEarth 2) [] id true) exampleJsonFile
        "solarsys.json"
        (loadCatalogFile (specCollaborators (exampleResolveEarth 1) [] id true) exampleJsonFile
          "solarsys.json" ⟨[]⟩).1).1.names.count "Moon" = 0) := by
  refine ⟨⟨List.mem_cons_of_mem _ (List.mem_cons_self _ _), by decide, by decide⟩,
    ⟨by decide, by decide, by decide⟩, ⟨by decide, by decide⟩⟩

section ReplaceLemmas

variable {E I : Type}

theorem replacedEntities_get (urls : List String) :
    replacedEntities (urls.map (Call.get : String → Call E I)) = [] := by
  induction urls with
  | nil => rfl
  | cons url rest ih => simp [replacedEntities, ih]

theorem replacedEntities_legacy (b : Bool) (p q r s : String) :
    replacedEntities
      ([ Call.setDataSearchPath p, Call.setTextureSearchPath q, Call.setModelSearchPath r ]
        ++ (if b then [(Call.setLocalSearchPatch s : Call E I)] else [])) = [] := by
  cases b <;> rfl

theorem replacedEntities_replaceEntities_eq (catalog : UniverseCatalog E I)
    (names : List String) :
    replacedEntities (replaceEntities catalog names)
      = names.filterMap
          (fun name => (catalog.find name).map (fun e => (e, catalog.findInfo name))) := by
  induction names with
  | nil => rfl
  | cons name rest ih =>
      unfold replaceEntities
      cases hfind : catalog.find name with
      | none => simp [List.filterMap_cons, hfind, ih]
      | some e => simp [List.filterMap_cons, hfind, ih, replacedEntities]

theorem replacedEntities_loadAndShow (env : Collaborators E I) (contents : QVariantMap)
    (m_catalog : UniverseCatalog E I) :
    replacedEntities (loadAndShow env contents m_catalog).2
      = (env.loadSolarSystem contents m_catalog).bodyNames.filterMap
          (fun name =>
            ((env.loadSolarSystem contents m_catalog).catalog.find name).map
              (fun e => (e, (env.loadSolarSystem contents m_catalog).catalog.findInfo name))) := by
  unfold loadAndShow
  simp only [replacedEntities_append, replacedEntities_get, List.append_nil]
  rw [replacedEntities_replaceEntities_eq]
  rfl

end ReplaceLemmas

/-- C14: when loadCatalogFile reaches loadSolarSystem (a .json file that parses to
a non-empty map, or a .ssc file), the replaceEntity calls it makes are, in the
order of the returned name list, one call for each listed name that the catalog
finds, with arguments find(name) and findInfo(name), looked up in the catalog as
the load left it; a listed name that the catalog does not find contributes no
call and the names after it are still applied. -/
theorem loadCatalogFile_replaceEntity_calls {E I : Type} (env : Collaborators E I)
    (file : CatalogFile) (fileName : String) (m_catalog : UniverseCatalog E I)
    (contents : QVariantMap) (hopen : file.opens = true)
    (hreach :
      (endsWith (toLower fileName) ".json" = true ∧
        ∃ document : QVariant, file.json = Except.ok document ∧
          document.toMap.isEmpty = false ∧ contents = document.toMap) ∨
      (endsWith (toLower fileName) ".ssc" = true ∧
        contents = sscContents env.TransformSscObject fileName file.sscObjects)) :
    loadedContents (loadCatalogFile env file fileName m_catalog).2 = [contents] ∧
    (loadCatalogFile env file fileName m_catalog).1
      = (env.loadSolarSystem contents m_catalog).catalog ∧
    replacedEntities (loadCatalogFile env file fileName m_catalog).2
      = (env.loadSolarSystem contents m_catalog).bodyNames.filterMap
          (fun name =>
            ((env.loadSolarSystem contents m_catalog).catalog.find name).map
              (fun e => (e, (env.loadSolarSystem contents m_catalog).catalog.findInfo name))) := by
  rcases hreach with ⟨hjson, document, hparse, hfull, hcontents⟩ | ⟨hssc, hcontents⟩
  · subst hcontents
    rw [loadCatalogFile_parsed_run env file fileName document m_catalog hjson hopen hparse hfull]
    refine ⟨?_, rfl, ?_⟩
    · show loadedContents (_ ++ _) = _
      rw [loadedContents_append, loadedContents_opened, loadedContents_loadAndShow]
      rfl
    · show replacedEntities (_ ++ _) = _
      rw [replacedEntities_append, replacedEntities_opened, replacedEntities_loadAndShow]
      rfl
  · subst hcontents
    rw [loadCatalogFile_legacy_run env file fileName m_catalog hssc hopen]
    refine ⟨?_, rfl, ?_⟩
    · show loadedContents (_ ++ _ ++ _) = _
      rw [loadedContents_append, loadedContents_append, loadedContents_opened,
        loadedContents_legacy, loadedContents_loadAndShow]
      rfl
    · show replacedEntities (_ ++ _ ++ _) = _
      rw [replacedEntities_append, replacedEntities_append, replacedEntities_opened,
        replacedEntities_legacy, replacedEntities_loadAndShow]
      rfl

theorem loadCatalogFile_replaceEntity_calls_witness :
    exampleJsonFile.opens = true ∧
    (endsWith (toLower "solarsys.json") ".json" = true ∧
      exampleJsonFile.json = Except.ok exampleDocument ∧
      exampleDocument.toMap.isEmpty = false) ∧
    replacedEntities
        (loadCatalogFile (specCollaborators (exampleResolve 1) [] id true) exampleJsonFile
          "solarsys.json" ⟨[]⟩).2
      = [(1, some 1), (1, some 1)] :=
  ⟨rfl, ⟨by decide, rfl, rfl⟩,
    (loadCatalogFile_replaceEntity_calls (specCollaborators (exampleResolve 1) [] id true)
      exampleJsonFile "solarsys.json" ⟨[]⟩ exampleDocument.toMap rfl
      (Or.inl ⟨by decide, exampleDocument, rfl, rfl, rfl⟩)).2.2⟩

section TimeControlLemmas

variable {α : Type} [LinearOrderedField α]

theorem timeScaleInRange_iff (t : α) :
    timeScaleInRange t
      ↔ t = 0 ∨ (1 / 1000 ≤ t ∧ t ≤ 10000000) ∨ (-10000000 ≤ t ∧ t ≤ -(1 / 1000)) := by
  unfold timeScaleInRange
  have e1 : (1.0e-3 : α) = 1 / 1000 := by norm_num
  have e2 : (1.0e7 : α) = 10000000 := by norm_num
  rw [e1, e2]
  constructor
  · rintro (h | ⟨h1, h2⟩)
    · exact Or.inl h
    · rcases le_or_lt 0 t with ht | ht
      · rw [abs_of_nonneg ht] at h1 h2
        exact Or.inr (Or.inl ⟨h1, h2⟩)
      · rw [abs_of_neg ht] at h1 h2
        exact Or.inr (Or.inr ⟨by linarith, by linarith⟩)
  · rintro (h | ⟨h1, h2⟩ | ⟨h1, h2⟩)
    · exact Or.inl h
    · have ht : 0 ≤ t := by linarith
      rw [abs_of_nonneg ht]
      exact Or.inr ⟨h1, h2⟩
    · have ht : t < 0 := by linarith
      rw [abs_of_neg ht]
      exact Or.inr ⟨by linarith, by linarith⟩

theorem faster_eq (t : α) :
    faster t = if t * 10 < -10000000 then -10000000
      else if t * 10 > 10000000 then 10000000 else t * 10 := by
  unfold faster
  norm_num

theorem faster2_eq (t : α) :
    faster2 t = if t * 2 < -10000000 then -10000000
      else if t * 2 > 10000000 then 10000000 else t * 2 := by
  unfold faster2
  norm_num

theorem slower_eq (t : α) :
    slower t = if t * (1 / 10) > 0 then max (1 / 1000) (t * (1 / 10))
      else if t * (1 / 10) < 0 then min (-(1 / 1000)) (t * (1 / 10)) else t * (1 / 10) := by
  unfold slower
  norm_num

theorem slower2_eq (t : α) :
    slower2 t = if t * (1 / 2) > 0 then max (1 / 1000) (t * (1 / 2))
      else if t * (1 / 2) < 0 then min (-(1 / 1000)) (t * (1 / 2)) else t * (1 / 2) := by
  unfold slower2
  norm_num

theorem faster_inRange (t : α) (h : timeScaleInRange t) : timeScaleInRange (faster t) := by
  rw [timeScaleInRange_iff] at h ⊢
  rw [faster_eq]
  rcases h with h | ⟨h1, h2⟩ | ⟨h1, h2⟩
  · subst h
    norm_num
  · split_ifs <;>
      first
        | (exfalso; linarith)
        | exact Or.inr (Or.inl ⟨by linarith, by linarith⟩)
  · split_ifs <;>
      first
        | (exfalso; linarith)
        | exact Or.inr (Or.inr ⟨by linarith, by linarith⟩)

theorem faster_sameSign (t : α) : sameSign (faster t) t := by
  unfold sameSign
  rw [faster_eq]
  split_ifs <;>
    refine ⟨?_, ?_, ?_⟩ <;> constructor <;> intro hsign <;> linarith

theorem faster2_inRange (t : α) (h : timeScaleInRange t) : timeScaleInRange (faster2 t) := by
  rw [timeScaleInRange_iff] at h ⊢
  rw [faster2_eq]
  rcases h with h | ⟨h1, h2⟩ | ⟨h1, h2⟩
  · subst h
    norm_num
  · split_ifs <;>
      first
        | (exfalso; linarith)
        | exact Or.inr (Or.inl ⟨by linarith, by linarith⟩)
  · split_ifs <;>
      first
        | (exfalso; linarith)
        | exact Or.inr (Or.inr ⟨by linarith, by linarith⟩)

theorem faster2_sameSign (t : α) : sameSign (faster2 t) t := by
  unfold sameSign
  rw [faster2_eq]
  split_ifs <;>
    refine ⟨?_, ?_, ?_⟩ <;> constructor <;> intro hsign <;> linarith

theorem slower_inRange (t : α) (h : timeScaleInRange t) : timeScaleInRange (slower t) := by
  rw [timeScaleInRange_iff] at h ⊢
  rw [slower_eq]
  rcases h with h | ⟨h1, h2⟩ | ⟨h1, h2⟩
  · subst h
    norm_num
  · rw [max_def, min_def]
    split_ifs <;>
      first
        | (exfalso; linarith)
        | exact Or.inr (Or.inl ⟨by linarith, by linarith⟩)
  · rw [max_def, min_def]
    split_ifs <;>
      first
        | (exfalso; linarith)
        | exact Or.inr (Or.inr ⟨by linarith, by linarith⟩)

theorem slower_sameSign (t : α) : sameSign (slower t) t := by
  unfold sameSign
  rw [slower_eq, max_def, min_def]
  split_ifs <;>
    refine ⟨?_, ?_, ?_⟩ <;> constructor <;> intro hsign <;> linarith

theorem slower2_inRange (t : α) (h : timeScaleInRange t) : timeScaleInRange (slower2 t) := by
  rw [timeScaleInRange_iff] at h ⊢
  rw [slower2_eq]
  rcases h with h | ⟨h1, h2⟩ | ⟨h1, h2⟩
  · subst h
    norm_num
  · rw [max_def, min_def]
    split_ifs <;>
      first
        | (exfalso; linarith)
        | exact Or.inr (Or.inl ⟨by linarith, by linarith⟩)
  · rw [max_def, min_def]
    split_ifs <;>
      first
        | (exfalso; linarith)
        | exact Or.inr (Or.inr ⟨by linarith, by linarith⟩)

theorem slower2_sameSign (t : α) : sameSign (slower2 t) t := by
  unfold sameSign
  rw [slower2_eq, max_def, min_def]
  split_ifs <;>
    refine ⟨?_, ?_, ?_⟩ <;> constructor <;> intro hsign <;> linarith

theorem reverseTime_inRange (t : α) (h : timeScaleInRange t) :
    timeScaleInRange (reverseTime t) := by
  unfold timeScaleInRange reverseTime at *
  rcases h with h | h
  · exact Or.inl (by rw [h, neg_zero])
  · rw [abs_neg]
    exact Or.inr h

theorem TimeControl.apply_inRange (control : TimeControl) (t : α) (h : timeScaleInRange t) :
    timeScaleInRange (control.apply t) := by
  cases control
  · exact faster_inRange t h
  · exact slower_inRange t h
  · exact faster2_inRange t h
  · exact slower2_inRange t h
  · exact reverseTime_inRange t h

theorem applyControls_inRange (controls : List TimeControl) (t : α)
    (h : timeScaleInRange t) : timeScaleInRange (applyControls controls t) := by
  unfold applyControls
  induction controls generalizing t with
  | nil => exact h
  | cons control rest ih => exact ih _ (TimeControl.apply_inRange control t h)

end TimeControlLemmas

/-- C16: starting from a time scale in the set S (0, or 1e-3 <= |t| <= 1e7),
every sequence of the controls faster, slower, faster2, slower2 and reverseTime
leaves the time scale in S, each single control does, and faster, slower,
faster2 and slower2 return a value of the same sign as their input, 0 for 0. -/
theorem applyControls_timeScaleInRange {α : Type} [LinearOrderedField α] (t : α)
    (h : timeScaleInRange t) :
    (∀ controls : List TimeControl, timeScaleInRange (applyControls controls t)) ∧
    timeScaleInRange (faster t) ∧ timeScaleInRange (slower t) ∧
    timeScaleInRange (faster2 t) ∧ timeScaleInRange (slower2 t) ∧
    timeScaleInRange (reverseTime t) ∧
    sameSign (faster t) t ∧ sameSign (slower t) t ∧
    sameSign (faster2 t) t ∧ sameSign (slower2 t) t ∧
    faster (0 : α) = 0 ∧ slower (0 : α) = 0 ∧ faster2 (0 : α) = 0 ∧ slower2 (0 : α) = 0 := by
  refine ⟨fun controls => applyControls_inRange controls t h, faster_inRange t h,
    slower_inRange t h, faster2_inRange t h, slower2_inRange t h, reverseTime_inRange t h,
    faster_sameSign t, slower_sameSign t, faster2_sameSign t, slower2_sameSign t,
    ((faster_sameSign (0 : α)).2.2).mpr rfl, ((slower_sameSign (0 : α)).2.2).mpr rfl,
    ((faster2_sameSign (0 : α)).2.2).mpr rfl, ((slower2_sameSign (0 : α)).2.2).mpr rfl⟩

theorem applyControls_timeScaleInRange_witness :
    timeScaleInRange ((3 : ℚ) / 1000) ∧
    timeScaleInRange
      (applyControls
        [TimeControl.slower, TimeControl.reverseTime, TimeControl.faster2, TimeControl.faster]
        ((3 : ℚ) / 1000)) ∧
    sameSign (slower ((3 : ℚ) / 1000)) ((3 : ℚ) / 1000) :=
  have h0 : timeScaleInRange ((3 : ℚ) / 1000) :=
    (timeScaleInRange_iff _).mpr (Or.inr (Or.inl ⟨by norm_num, by norm_num⟩))
  have h := applyControls_timeScaleInRange ((3 : ℚ) / 1000) h0
  ⟨h0, h.1 _, h.2.2.2.2.2.2.2.1⟩

section DateLemmas

theorem QTime.new_in_range (h m s ms : Int)
    (hh : 0 ≤ h ∧ h ≤ 23) (hm : 0 ≤ m ∧ m ≤ 59) (hs : 0 ≤ s ∧ s ≤ 59)
    (hms : 0 ≤ ms ∧ ms ≤ 999) : QTime.new h m s ms = QTime.time h m s ms := by
  unfold QTime.new
  rw [if_pos ⟨hh.1, hh.2, hm.1, hm.2, hs.1, hs.2, hms.1, hms.2⟩]

theorem QDate.new_accepted (isValid : Int → Int → Int → Bool) (y m d : Int)
    (h : isValid y m d = true) : QDate.new isValid y m d = QDate.date y m d := by
  unfold QDate.new
  rw [if_pos h]

theorem vestaDateToQtDate_valid (isValid : Int → Int → Int → Bool) (d : GregorianDate)
    (hdate : isValid d.year d.month d.day = true)
    (hhour : 0 ≤ d.hour ∧ d.hour ≤ 23) (hminute : 0 ≤ d.minute ∧ d.minute ≤ 59)
    (hsecond : 0 ≤ d.second ∧ d.second ≤ 59) (husec : 0 ≤ d.usec ∧ d.usec ≤ 999999) :
    vestaDateToQtDate isValid d
      = { date := QDate.date d.year d.month d.day
          time := QTime.time d.hour d.minute d.second (d.usec / 1000)
          spec := TimeSpec.UTC } := by
  unfold vestaDateToQtDate
  have hdiv : Int.tdiv d.usec 1000 = d.usec / 1000 :=
    Int.tdiv_eq_ediv husec.1 (by decide)
  have hms : 0 ≤ d.usec / 1000 ∧ d.usec / 1000 ≤ 999 := by
    obtain ⟨h1, h2⟩ := husec
    constructor <;> omega
  rw [hdiv, QDate.new_accepted isValid _ _ _ hdate, QTime.new_in_range _ _ _ _ hhour hminute hsecond hms]
  unfold QDateTime.new
  simp

end DateLemmas

/-- C17, as amended: for every TDB date d whose year, month and day QDate accepts
as a date, whose hour is in 0..23, whose minute and second are in 0..59 and whose
microsecond field is in 0..999999, qtDateToVestaDate(vestaDateToQtDate(d)) has
the same year, month, day, hour, minute and second as d, time scale TDB, and
microsecond field 1000 * (d.usec div 1000); the round trip returns d exactly
when d.usec is a multiple of 1000. -/
theorem qtDateToVestaDate_vestaDateToQtDate (isValid : Int → Int → Int → Bool)
    (d : GregorianDate) (hscale : d.timeScale = TimeScale.TimeScale_TDB)
    (hdate : isValid d.year d.month d.day = true)
    (hhour : 0 ≤ d.hour ∧ d.hour ≤ 23) (hminute : 0 ≤ d.minute ∧ d.minute ≤ 59)
    (hsecond : 0 ≤ d.second ∧ d.second ≤ 59) (husec : 0 ≤ d.usec ∧ d.usec ≤ 999999) :
    (qtDateToVestaDate (vestaDateToQtDate isValid d)).year = d.year ∧
    (qtDateToVestaDate (vestaDateToQtDate isValid d)).month = d.month ∧
    (qtDateToVestaDate (vestaDateToQtDate isValid d)).day = d.day ∧
    (qtDateToVestaDate (vestaDateToQtDate isValid d)).hour = d.hour ∧
    (qtDateToVestaDate (vestaDateToQtDate isValid d)).minute = d.minute ∧
    (qtDateToVestaDate (vestaDateToQtDate isValid d)).second = d.second ∧
    (qtDateToVestaDate (vestaDateToQtDate isValid d)).timeScale = TimeScale.TimeScale_TDB ∧
    (qtDateToVestaDate (vestaDateToQtDate isValid d)).usec = 1000 * (d.usec / 1000) ∧
    (qtDateToVestaDate (vestaDateToQtDate isValid d) = d ↔ d.usec % 1000 = 0) := by
  rw [vestaDateToQtDate_valid isValid d hdate hhour hminute hsecond husec]
  refine ⟨rfl, rfl, rfl, rfl, rfl, rfl, rfl, ?_, ?_⟩
  · show d.usec / 1000 * 1000 = 1000 * (d.usec / 1000)
    omega
  · constructor
    · intro h
      have hu : d.usec / 1000 * 1000 = d.usec := congrArg GregorianDate.usec h
      omega
    · intro h
      apply GregorianDate.ext
      · rfl
      · rfl
      · rfl
      · rfl
      · rfl
      · rfl
      · show d.usec / 1000 * 1000 = d.usec
        omega
      · exact hscale.symm

theorem qtDateToVestaDate_vestaDateToQtDate_witness :
    (exampleDate.timeScale = TimeScale.TimeScale_TDB ∧
      exampleCalendar exampleDate.year exampleDate.month exampleDate.day = true ∧
      (0 ≤ exampleDate.hour ∧ exampleDate.hour ≤ 23) ∧
      (0 ≤ exampleDate.minute ∧ exampleDate.minute ≤ 59) ∧
      (0 ≤ exampleDate.second ∧ exampleDate.second ≤ 59) ∧
      (0 ≤ exampleDate.usec ∧ exampleDate.usec ≤ 999999)) ∧
    (qtDateToVestaDate (vestaDateToQtDate exampleCalendar exampleDate)).second
      = exampleDate.second ∧
    (qtDateToVestaDate (vestaDateToQtDate exampleCalendar exampleDate)).usec
      = 1000 * (exampleDate.usec / 1000) :=
  have h := qtDateToVestaDate_vestaDateToQtDate exampleCalendar exampleDate rfl (by decide)
    (by decide) (by decide) (by decide) (by decide)
  ⟨⟨rfl, by decide, by decide, by decide, by decide, by decide⟩, h.2.2.2.2.2.1, h.2.2.2.2.2.2.2.1⟩

/-- C17, as stated, fails: a TDB date with microsecond field 0 that the round
trip does not preserve. The date lies in year 0, which Qt's calendar (and the
example calendar) does not have: QDate(0, 3, 15) is the null date, and the year,
month and day that come back are those of Julian day 0, not those of the
date. -/
theorem vestaDateToQtDate_out_of_range :
    exampleYearZeroDate.timeScale = TimeScale.TimeScale_TDB ∧
    0 ≤ exampleYearZeroDate.usec ∧ exampleYearZeroDate.usec ≤ 999999 ∧
    exampleCalendar exampleYearZeroDate.year exampleYearZeroDate.month
      exampleYearZeroDate.day = false ∧
    (qtDateToVestaDate (vestaDateToQtDate exampleCalendar exampleYearZeroDate)).year
      ≠ exampleYearZeroDate.year ∧
    (qtDateToVestaDate (vestaDateToQtDate exampleCalendar exampleYearZeroDate)).month
      ≠ exampleYearZeroDate.month ∧
    (qtDateToVestaDate (vestaDateToQtDate exampleCalendar exampleYearZeroDate)).day
      ≠ exampleYearZeroDate.day ∧
    qtDateToVestaDate (vestaDateToQtDate exampleCalendar exampleYearZeroDate)
      ≠ exampleYearZeroDate := by
  decide

end Cosmographia
